import Mathlib

/-!
Shallow embedding of `source/graphics/TextureManager.cpp` (0 A.D. texture
manager): the texture identity cache and its comparator, the per-texture
loading state machine, the cache-validity policy, the loose-cache path
derivation, the hotload invalidation index, and the `MakeProgress`
scheduling loop.  External collaborators (VFS, OpenGL resource layer,
texture converter) are modelled as oracles at their interfaces.
-/

namespace TexMgr

/-- A VFS path, as its list of components (`VfsPath` in the source; the
`branch_path`/`leaf` operations of the external path library become
`dropLast`/`getLast`). -/
abbrev VfsPath := List String

/-- `VfsPath::leaf()`: the last component (filename). -/
def leafName (p : VfsPath) : String := p.getLastD ""

/-- `CTextureProperties`: the immutable texture property key
(`m_Path`, `m_Filter`, `m_Wrap`, `m_Aniso`). -/
structure CTextureProperties where
  path : VfsPath
  filter : Nat
  wrap : Nat
  aniso : Nat
deriving DecidableEq, Repr

/-- Lexicographic `<` on paths (the external `VfsPath::operator<`,
component-wise on strings). -/
def pathLt : VfsPath → VfsPath → Bool
  | [], [] => false
  | [], _ :: _ => true
  | _ :: _, [] => false
  | a :: as, b :: bs =>
    if a < b then true
    else if b < a then false
    else pathLt as bs

/-- `TextureCacheCmp::operator()` on two `CTextureProperties`:
strict-weak-order comparison, lexicographic by field, path first. -/
def texCmp (a b : CTextureProperties) : Bool :=
  if pathLt a.path b.path then true
  else if pathLt b.path a.path then false
  else if a.filter < b.filter then true
  else if b.filter < a.filter then false
  else if a.wrap < b.wrap then true
  else if b.wrap < a.wrap then false
  else if a.aniso < b.aniso then true
  else if b.aniso < a.aniso then false
  else false

/-- `CTexture`'s state enumeration. -/
inductive TexState where
  | UNLOADED
  | PREFETCH_NEEDS_LOADING
  | PREFETCH_NEEDS_CONVERTING
  | PREFETCH_IS_CONVERTING
  | HIGH_NEEDS_CONVERTING
  | HIGH_IS_CONVERTING
  | LOADED
deriving DecidableEq, Repr

/-- A `CTexture` object: identity (`id` stands for the object's address),
current GL handle, average base colour, state, properties, and whether
`m_Self` (the weak self-reference) has been assigned — `m_Self.lock()`
succeeds on a live object exactly when it was assigned. -/
structure CTexture where
  id : Nat
  handle : Nat
  baseColour : Nat
  state : TexState
  props : CTextureProperties
  selfSet : Bool
deriving DecidableEq, Repr

/-- `CTexture::SetHandle` (reference counting aside): no-op when the new
handle equals the current one, otherwise replace. -/
def setHandle (t : CTexture) (h : Nat) : CTexture :=
  if h = t.handle then t else { t with handle := h }

/-- `FileInfo` as used by the manager: size and modification time
(`MTime()` as a non-negative count of seconds). -/
structure FileInfo where
  size : Nat
  mtime : Nat
deriving DecidableEq, Repr

/-- Serialized conversion settings: the byte stream `Settings::Hash`
feeds into the digest (the converter is external; only these bytes and
equality of settings matter here). -/
abbrev Settings := List Nat

/-- An opaque parsed settings file (`CTextureConverter::SettingsFile`),
external to this translation unit. -/
abbrev SettingsFile := Nat

/-- The external collaborators' interfaces (§ VFS, GL resource layer,
converter computation, digest), fixed for a run: `GetFilePriority`
(`some` priority iff the file exists), `GetFileInfo`, `ogl_tex_load`
(`some` handle iff the load succeeds), `ogl_tex_upload` success,
`ogl_tex_get_average_colour`, `LoadSettings`, `ComputeSettings`, and the
MD5 digest of a byte stream (16 bytes, indexable). -/
structure Env where
  disableGL : Bool
  priority : VfsPath → Option Nat
  fileInfo : VfsPath → Option FileInfo
  glLoad : VfsPath → Option Nat
  glUpload : Nat → Bool
  glAvgColour : Nat → Nat
  loadSettings : VfsPath → SettingsFile
  computeSettings : String → List SettingsFile → Settings
  md5 : List Nat → Fin 16 → Fin 256

/-- A conversion job handed to the converter: the texture (by identity),
source path, destination (loose cache) path, and settings. -/
structure ConvJob where
  tid : Nat
  srcPath : VfsPath
  destPath : VfsPath
  settings : Settings
deriving DecidableEq, Repr

/-- Modelled from the spec: the Conversion Scheduler interface (§4.6) —
`CTextureConverter`'s own code is outside this translation unit.
`jobs` are submitted jobs not yet finished; `results` are finished jobs
`(texture id, destination path, success)` awaiting `Poll`, which returns
at most one completed job per call, non-blockingly. -/
structure ConvState where
  jobs : List ConvJob
  results : List (Nat × VfsPath × Bool)
deriving DecidableEq, Repr

/-- Modelled from the spec: `CTextureConverter::IsBusy` — the converter
is busy while it holds submitted-but-unpolled work. -/
def ConvState.isBusy (c : ConvState) : Bool :=
  !(c.jobs.isEmpty && c.results.isEmpty)

/-- The manager state (`CTextureManagerImpl` plus the heap of live
`CTexture` objects): `texs` are the live texture objects, `cache` the
identity set `m_TextureCache` (ids, kept in `TextureCacheCmp` order),
`hotload` is `m_HotloadFiles` (weak references as ids, which may
dangle), `settingsFiles` is `m_SettingsFiles`. -/
structure TM where
  texs : List CTexture
  nextId : Nat
  cache : List Nat
  hotload : List (VfsPath × List Nat)
  settingsFiles : List (VfsPath × Option SettingsFile)
  converter : ConvState
  defaultHandle : Nat
  errorHandle : Nat
deriving DecidableEq, Repr

/-- Dereference a texture id on the heap. -/
def findTex (tm : TM) (tid : Nat) : Option CTexture :=
  tm.texs.find? (fun t => t.id = tid)

/-- Mutate the texture object with the given id (a field write through a
pointer in the source). -/
def updateTex (tm : TM) (tid : Nat) (f : CTexture → CTexture) : TM :=
  { tm with texs := tm.texs.map (fun t => if t.id = tid then f t else t) }

/-- The state of the texture with the given id, if it is live. -/
def stateOf (tm : TM) (tid : Nat) : Option TexState :=
  (findTex tm tid).map (·.state)

/-- The handle of the texture with the given id, if it is live. -/
def handleOf (tm : TM) (tid : Nat) : Option Nat :=
  (findTex tm tid).map (·.handle)

/-- The properties of the texture with the given id, if it is live. -/
def propsOf (tm : TM) (tid : Nat) : Option CTextureProperties :=
  (findTex tm tid).map (·.props)

/-- Association-list lookup (`std::map::find`). -/
def lookupAssoc {α : Type} [DecidableEq α] {β : Type} :
    List (α × β) → α → Option β
  | [], _ => none
  | (k, v) :: rest, key => if k = key then some v else lookupAssoc rest key

/-- The set of weak references registered under a path in
`m_HotloadFiles` (empty when the path has no entry). -/
def hotloadLookup (tm : TM) (path : VfsPath) : List Nat :=
  (lookupAssoc tm.hotload path).getD []

/-- `m_HotloadFiles[path].insert(texture)`: set insertion into the
per-path weak-reference set. -/
def hotloadInsert (hl : List (VfsPath × List Nat)) (path : VfsPath)
    (tid : Nat) : List (VfsPath × List Nat) :=
  match hl with
  | [] => [(path, [tid])]
  | (p, s) :: rest =>
    if p = path then (p, if tid ∈ s then s else s ++ [tid]) :: rest
    else (p, s) :: hotloadInsert rest path tid

/-- `CTextureManagerImpl::GetSettingsFile`: the memoized settings-file
lookup — a hit returns the cached value (possibly the "file absent"
marker `none`); a miss probes the VFS, loads on existence, and memoizes
either outcome. -/
def getSettingsFile (env : Env) (tm : TM) (path : VfsPath) :
    Option SettingsFile × TM :=
  match lookupAssoc tm.settingsFiles path with
  | some v => (v, tm)
  | none =>
    if (env.fileInfo path).isSome then
      let s := env.loadSettings path
      (some s, { tm with settingsFiles := tm.settingsFiles ++ [(path, some s)] })
    else
      (none, { tm with settingsFiles := tm.settingsFiles ++ [(path, none)] })

/-- The loop body of `GetConverterSettings`: walk the components of the
source path; at each level register `p/textures.xml` as a hotload
dependency of the texture, fetch its (cached) settings file, and collect
the ones that exist, root-to-leaf. -/
def getConverterSettingsAux (env : Env) (tid : Nat) :
    List String → VfsPath → TM → List SettingsFile × TM
  | [], _, tm => ([], tm)
  | c :: cs, p, tm =>
    let settingsPath := p ++ ["textures.xml"]
    let tm1 := { tm with hotload := hotloadInsert tm.hotload settingsPath tid }
    let (f, tm2) := getSettingsFile env tm1 settingsPath
    let (rest, tm3) := getConverterSettingsAux env tid cs (p ++ [c]) tm2
    (match f with
     | some s => s :: rest
     | none => rest, tm3)

/-- `CTextureManagerImpl::GetConverterSettings`: combine the
`textures.xml` files of the texture's directory and all ancestors via
the external `ComputeSettings`. -/
def getConverterSettings (env : Env) (tm : TM) (t : CTexture) :
    Settings × TM :=
  let (files, tm1) := getConverterSettingsAux env t.id t.props.path [] tm
  (env.computeSettings (leafName t.props.path) files, tm1)

/-- A lower-case hex digit. -/
def hexDigit (n : Nat) : Char :=
  if n < 10 then Char.ofNat (48 + n) else Char.ofNat (87 + n)

/-- One byte printed as `std::hex` with `setw(2)`/`setfill('0')`:
exactly two lower-case hex characters for a value below 256. -/
def hexByte (b : Nat) : String :=
  String.mk [hexDigit (b / 16), hexDigit (b % 16)]

/-- The 8 little-endian bytes of a `u64` value. -/
def u64Bytes (n : Nat) : List Nat :=
  (List.range 8).map (fun i => n / 256 ^ i % 256)

/-- The 4 little-endian bytes of a `u32` value. -/
def u32Bytes (n : Nat) : List Nat :=
  (List.range 4).map (fun i => n / 256 ^ i % 256)

/-- The byte stream fed to the digest in `LooseCachePath`: masked mtime,
size, version constant, then the serialized settings. -/
def looseCacheHashInput (mtime size version : Nat) (settings : Settings) :
    List Nat :=
  u64Bytes mtime ++ u64Bytes size ++ u32Bytes version ++ settings

/-- The 16-hex-character digest prefix of `LooseCachePath`: the first 8
digest bytes, each as two hex characters. -/
def digestPrefixStr (digest : Fin 16 → Fin 256) : String :=
  String.join (((List.range 8).map (fun i => hexByte (digest ⟨i % 16, Nat.mod_lt _ (by simp)⟩).val)))

/-- `CTextureManagerImpl::LooseCachePath`: derive
`cache/<sourceDir>/<sourceName>.<digestPrefix>.dds` from the source
file's mtime (lowest bit masked off, after the `u64` cast), size, the
version constant 0, and the resolved conversion settings; on a vanished
source file return the empty path. -/
def looseCachePathFn (env : Env) (tm : TM) (t : CTexture) : VfsPath × TM :=
  let sourcePath := t.props.path
  match env.fileInfo sourcePath with
  | none => ([], tm)
  | some fi =>
    let mtime := fi.mtime % 2 ^ 64 - fi.mtime % 2 ^ 64 % 2
    let size := fi.size % 2 ^ 64
    let version := 0
    let (settings, tm1) := getConverterSettings env tm t
    let digest := env.md5 (looseCacheHashInput mtime size version settings)
    let digestPrefix := digestPrefixStr digest
    (["cache"] ++ sourcePath.dropLast ++
       [leafName sourcePath ++ "." ++ digestPrefix ++ ".dds"], tm1)

/-- `CTextureManagerImpl::CanUseArchiveCache`: pure validity decision
over the VFS oracle — no archive cache → false; archive but no source →
true; source from a strictly higher-priority mod → false; source's
mtime more than 2 seconds newer (when both file infos resolve) → false;
otherwise → true. -/
def canUseArchiveCache (env : Env) (sourcePath archiveCachePath : VfsPath) :
    Bool :=
  let sourcePriority := env.priority sourcePath
  let archiveCachePriority := env.priority archiveCachePath
  match archiveCachePriority with
  | none => false
  | some ap =>
    match sourcePriority with
    | none => true
    | some sp =>
      if ap < sp then false
      else
        match env.fileInfo sourcePath, env.fileInfo archiveCachePath with
        | some sourceInfo, some archiveCacheInfo =>
          let howMuchNewer : Int :=
            (sourceInfo.mtime : Int) - (archiveCacheInfo.mtime : Int)
          let threshold : Int := 2
          if howMuchNewer > threshold then false else true
        | _, _ => true

/-- `CTextureManagerImpl::LoadTexture`: no-op under `disableGL`; a
failed `ogl_tex_load` replaces the handle with the error placeholder;
otherwise base colour is read from the loaded resource, and a failed
`ogl_tex_upload` frees it and substitutes the error placeholder; on
success the texture takes ownership of the new handle. -/
def loadTexture (env : Env) (tm : TM) (tid : Nat) (path : VfsPath) : TM :=
  if env.disableGL then tm
  else
    match env.glLoad path with
    | none => updateTex tm tid (fun t => setHandle t tm.errorHandle)
    | some h =>
      let tm1 := updateTex tm tid (fun t => { t with baseColour := env.glAvgColour h })
      if env.glUpload h then updateTex tm1 tid (fun t => setHandle t h)
      else updateTex tm1 tid (fun t => setHandle t tm.errorHandle)

/-- The archive-cache path derived in `TryLoadingCached`:
`sourceDir / (sourceName + ".dds")`. -/
def archiveCachePathOf (p : VfsPath) : VfsPath :=
  p.dropLast ++ [leafName p ++ ".dds"]

/-- `CTextureManagerImpl::TryLoadingCached`: archive cache first (§4.3);
a missing source (with unusable archive) substitutes the error
placeholder and counts as handled; otherwise the derived loose cache is
tried; returns `false` only on a genuine cache miss that requires
conversion. -/
def tryLoadingCached (env : Env) (tm : TM) (tid : Nat) : Bool × TM :=
  match findTex tm tid with
  | none => (false, tm)
  | some t =>
    let sourcePath := t.props.path
    let archiveCachePath := archiveCachePathOf sourcePath
    if canUseArchiveCache env sourcePath archiveCachePath then
      (true, loadTexture env tm tid archiveCachePath)
    else if (env.fileInfo sourcePath).isNone then
      (true, updateTex tm tid (fun u => setHandle u tm.errorHandle))
    else
      let (looseCachePath, tm1) := looseCachePathFn env tm t
      if (env.fileInfo looseCachePath).isSome then
        (true, loadTexture env tm1 tid looseCachePath)
      else
        (false, tm1)

/-- `CTextureManagerImpl::ConvertTexture`: derive the loose-cache path
and settings (each resolving settings afresh, as the source does) and
submit the asynchronous conversion job. -/
def convertTexture (env : Env) (tm : TM) (tid : Nat) : TM :=
  match findTex tm tid with
  | none => tm
  | some t =>
    let sourcePath := t.props.path
    let (looseCachePath, tm1) := looseCachePathFn env tm t
    let (settings, tm2) := getConverterSettings env tm1 t
    { tm2 with converter :=
        { tm2.converter with jobs :=
            tm2.converter.jobs ++ [⟨tid, sourcePath, looseCachePath, settings⟩] } }

/-- The first texture in `m_TextureCache` iteration order whose state is
`s` (the scan loops of `MakeProgress`). -/
def findFirstInState (tm : TM) (s : TexState) : Option Nat :=
  tm.cache.find? (fun tid =>
    match findTex tm tid with
    | some t => t.state = s
    | none => false)

/-- The completed-conversion branch of `MakeProgress`: `Poll` one result
if available, load the artifact on success or substitute the error
placeholder on failure, and mark the entry `LOADED` either way. -/
def pollStep (env : Env) (tm : TM) : Option TM :=
  match tm.converter.results with
  | [] => none
  | (tid, dest, ok) :: rest =>
    let tm1 := { tm with converter := { tm.converter with results := rest } }
    let tm2 :=
      if ok then loadTexture env tm1 tid dest
      else updateTex tm1 tid (fun t => setHandle t tm1.errorHandle)
    some (updateTex tm2 tid (fun t => { t with state := .LOADED }))

/-- The high-priority submission scan of `MakeProgress`: the first
`HIGH_NEEDS_CONVERTING` entry moves to `HIGH_IS_CONVERTING` and is
submitted. -/
def submitHighStep (env : Env) (tm : TM) : Option TM :=
  match findFirstInState tm .HIGH_NEEDS_CONVERTING with
  | none => none
  | some tid =>
    some (convertTexture env
      (updateTex tm tid (fun t => { t with state := .HIGH_IS_CONVERTING })) tid)

/-- The prefetch cache-load scan of `MakeProgress`: the first
`PREFETCH_NEEDS_LOADING` entry gets a cache-load attempt and moves to
`LOADED` on success or `PREFETCH_NEEDS_CONVERTING` on a miss. -/
def prefetchLoadStep (env : Env) (tm : TM) : Option TM :=
  match findFirstInState tm .PREFETCH_NEEDS_LOADING with
  | none => none
  | some tid =>
    let (ok, tm1) := tryLoadingCached env tm tid
    some (updateTex tm1 tid (fun t =>
      { t with state := if ok then .LOADED else .PREFETCH_NEEDS_CONVERTING }))

/-- The prefetch submission scan of `MakeProgress`: the first
`PREFETCH_NEEDS_CONVERTING` entry moves to `PREFETCH_IS_CONVERTING` and
is submitted. -/
def submitPrefetchStep (env : Env) (tm : TM) : Option TM :=
  match findFirstInState tm .PREFETCH_NEEDS_CONVERTING with
  | none => none
  | some tid =>
    some (convertTexture env
      (updateTex tm tid (fun t => { t with state := .PREFETCH_IS_CONVERTING })) tid)

/-- `CTextureManagerImpl::MakeProgress`: poll a completed conversion;
else (computing converter busyness once) submit a high-priority
conversion when idle; else attempt a prefetch cache load regardless of
busyness; else submit a prefetch conversion when idle; each step ends
the call with `true`, and `false` means no work happened. -/
def makeProgress (env : Env) (tm : TM) : Bool × TM :=
  match pollStep env tm with
  | some tm1 => (true, tm1)
  | none =>
    let converterBusy := tm.converter.isBusy
    match (if converterBusy then none else submitHighStep env tm) with
    | some tm1 => (true, tm1)
    | none =>
      match prefetchLoadStep env tm with
      | some tm1 => (true, tm1)
      | none =>
        match (if converterBusy then none else submitPrefetchStep env tm) with
        | some tm1 => (true, tm1)
        | none => (false, tm)

/-- The first cache entry equivalent to the probe's properties under
`TextureCacheCmp` (the `m_TextureCache.find` of `CreateTexture`:
`std::set` equivalence is `¬cmp(a,b) ∧ ¬cmp(b,a)`). -/
def findEquiv (tm : TM) (p : CTextureProperties) : Option Nat :=
  tm.cache.find? (fun tid =>
    match propsOf tm tid with
    | some q => !texCmp p q && !texCmp q p
    | none => false)

/-- Insert an id into the cache list keeping `TextureCacheCmp` order
(the `std::set` insertion of `CreateTexture`). -/
def cacheInsert (texs : List CTexture) (p : CTextureProperties) (tid : Nat) :
    List Nat → List Nat
  | [] => [tid]
  | x :: xs =>
    match (texs.find? (fun t => t.id = x)).map (·.props) with
    | some q => if texCmp p q then tid :: x :: xs else x :: cacheInsert texs p tid xs
    | none => x :: cacheInsert texs p tid xs

/-- `CTextureManagerImpl::CreateTexture`: build a probe texture with the
given properties (default handle, `UNLOADED`, no self-reference); return
the existing cache entry when one is equivalent; otherwise assign the
self-reference, insert into the cache, and register the hotload
dependency on the source path.  Returns the id of the returned shared
entry. -/
def createTexture (tm : TM) (props : CTextureProperties) : Nat × TM :=
  let probe : CTexture :=
    ⟨tm.nextId, tm.defaultHandle, 0, .UNLOADED, props, false⟩
  match findEquiv tm props with
  | some tid => (tid, tm)
  | none =>
    let tex := { probe with selfSet := true }
    (tex.id,
      { tm with
        texs := tm.texs ++ [tex]
        nextId := tm.nextId + 1
        cache := cacheInsert tm.texs props tex.id tm.cache
        hotload := hotloadInsert tm.hotload props.path tex.id })

/-- `CTexture::TryLoad`: in `UNLOADED`/`PREFETCH_NEEDS_LOADING` (with a
live self-reference) attempt the cache load, moving to `LOADED` on
success and `HIGH_NEEDS_CONVERTING` otherwise; in
`PREFETCH_NEEDS_CONVERTING` bump straight to `HIGH_NEEDS_CONVERTING`;
all other states are untouched.  Returns whether the state is `LOADED`
afterwards. -/
def tryLoad (env : Env) (tm : TM) (tid : Nat) : Bool × TM :=
  match findTex tm tid with
  | none => (false, tm)
  | some t =>
    let tm1 :=
      if t.state = .UNLOADED ∨ t.state = .PREFETCH_NEEDS_LOADING ∨
          t.state = .PREFETCH_NEEDS_CONVERTING then
        if t.selfSet then
          if t.state ≠ .PREFETCH_NEEDS_CONVERTING then
            let (ok, tm2) := tryLoadingCached env tm tid
            if ok then updateTex tm2 tid (fun u => { u with state := .LOADED })
            else updateTex tm2 tid (fun u => { u with state := .HIGH_NEEDS_CONVERTING })
          else updateTex tm tid (fun u => { u with state := .HIGH_NEEDS_CONVERTING })
        else tm
      else tm
    (stateOf tm1 tid = some TexState.LOADED, tm1)

/-- `CTexture::Prefetch`: only an `UNLOADED` entry with a live
self-reference moves to `PREFETCH_NEEDS_LOADING`; anything else is left
alone. -/
def prefetch (tm : TM) (tid : Nat) : TM :=
  match findTex tm tid with
  | none => tm
  | some t =>
    if t.state = .UNLOADED then
      if t.selfSet then
        updateTex tm tid (fun u => { u with state := .PREFETCH_NEEDS_LOADING })
      else tm
    else tm

/-- The loop body of `ReloadChangedFile`: `it->lock()` — if the weak
reference's object is live, set its state to `UNLOADED` and rebind its
handle to the default placeholder; an expired reference is skipped. -/
def reloadOne (acc : TM) (tid : Nat) : TM :=
  if (findTex acc tid).isSome then
    updateTex acc tid (fun t => setHandle { t with state := .UNLOADED } acc.defaultHandle)
  else acc

/-- `CTextureManagerImpl::ReloadChangedFile`: drop the memoized settings
entry for the path, then for each weak reference registered under the
path whose `lock()` succeeds (the object is live), reset its state to
`UNLOADED` and rebind its handle to the default placeholder.  Nothing is
erased from `m_HotloadFiles`. -/
def reloadChangedFile (tm : TM) (path : VfsPath) : TM :=
  let tm1 := { tm with settingsFiles := tm.settingsFiles.filter (fun pr => pr.1 ≠ path) }
  match lookupAssoc tm1.hotload path with
  | none => tm1
  | some tids => tids.foldl reloadOne tm1

/-- Basic well-formedness of a manager state: heap ids are below
`nextId` and pairwise distinct, and cache entries dereference. -/
def TM.WF (tm : TM) : Prop :=
  (∀ t ∈ tm.texs, t.id < tm.nextId) ∧
  (tm.texs.map (·.id)).Nodup ∧
  (∀ tid ∈ tm.cache, (findTex tm tid).isSome)

instance (tm : TM) : Decidable tm.WF := by
  unfold TM.WF
  infer_instance

/-! ### Comparator lemmas -/

theorem pathLt_irrefl (a : VfsPath) : pathLt a a = false := by
  induction a with
  | nil => rfl
  | cons x xs ih => simp [pathLt, ih]

theorem pathLt_antisymm : ∀ {a b : VfsPath},
    pathLt a b = false → pathLt b a = false → a = b := by
  intro a
  induction a with
  | nil =>
    intro b h1 _
    cases b with
    | nil => rfl
    | cons y ys => simp [pathLt] at h1
  | cons x xs ih =>
    intro b h1 h2
    cases b with
    | nil => simp [pathLt] at h2
    | cons y ys =>
      by_cases hxy : x < y
      · simp [pathLt, hxy] at h1
      · by_cases hyx : y < x
        · simp [pathLt, hyx] at h2
        · have hx : x = y := le_antisymm (not_lt.mp hyx) (not_lt.mp hxy)
          subst hx
          simp only [pathLt, if_neg hxy, if_neg hxy] at h1 h2
          rw [ih h1 h2]

theorem texCmp_self (p : CTextureProperties) : texCmp p p = false := by
  simp [texCmp, pathLt_irrefl]

/-- `std::set` equivalence under `TextureCacheCmp` coincides with
field-wise equality of the property key. -/
theorem texCmp_equiv_iff_eq (p q : CTextureProperties) :
    (texCmp p q = false ∧ texCmp q p = false) ↔ p = q := by
  constructor
  · rintro ⟨h1, h2⟩
    by_cases hp1 : pathLt p.path q.path
    · simp [texCmp, hp1] at h1
    · by_cases hp2 : pathLt q.path p.path
      · simp [texCmp, hp2] at h2
      · have hpath : p.path = q.path :=
          pathLt_antisymm (Bool.eq_false_iff.mpr hp1) (Bool.eq_false_iff.mpr hp2)
        simp only [texCmp, Bool.eq_false_iff.mpr hp1, Bool.eq_false_iff.mpr hp2,
          if_false] at h1 h2
        by_cases hf1 : p.filter < q.filter
        · simp [hf1] at h1
        · by_cases hf2 : q.filter < p.filter
          · simp [hf2] at h2
          · have hfilter : p.filter = q.filter := Nat.le_antisymm (not_lt.mp hf2) (not_lt.mp hf1)
            simp only [if_neg hf1, if_neg hf2] at h1 h2
            by_cases hw1 : p.wrap < q.wrap
            · simp [hw1] at h1
            · by_cases hw2 : q.wrap < p.wrap
              · simp [hw2] at h2
              · have hwrap : p.wrap = q.wrap := Nat.le_antisymm (not_lt.mp hw2) (not_lt.mp hw1)
                simp only [if_neg hw1, if_neg hw2] at h1 h2
                by_cases ha1 : p.aniso < q.aniso
                · simp [ha1] at h1
                · by_cases ha2 : q.aniso < p.aniso
                  · simp [ha2] at h2
                  · have haniso : p.aniso = q.aniso :=
                      Nat.le_antisymm (not_lt.mp ha2) (not_lt.mp ha1)
                    cases p; cases q
                    simp_all
  · rintro rfl
    exact ⟨texCmp_self p, texCmp_self p⟩

/-! ### List helper lemmas -/

theorem find?_eq_some_of_mem_unique {α : Type} {l : List α} {pred : α → Bool}
    {x : α} (hx : x ∈ l) (hpx : pred x = true)
    (huniq : ∀ y ∈ l, pred y = true → y = x) :
    l.find? pred = some x := by
  induction l with
  | nil => cases hx
  | cons a as ih =>
    by_cases hpa : pred a = true
    · have hax : a = x := huniq a (List.mem_cons_self a as) hpa
      subst hax
      simp [List.find?, hpa]
    · have hax : a ≠ x := fun h => hpa (h ▸ hpx)
      have hx' : x ∈ as := by
        cases hx with
        | head => exact absurd rfl hax
        | tail _ h => exact h
      simp only [List.find?, Bool.eq_false_iff.mpr hpa]
      exact ih hx' (fun y hy hpy => huniq y (List.mem_cons_of_mem a hy) hpy)

theorem mem_cacheInsert {texs : List CTexture} {p : CTextureProperties}
    {tid x : Nat} : ∀ {l : List Nat},
    x ∈ cacheInsert texs p tid l ↔ x = tid ∨ x ∈ l := by
  intro l
  induction l with
  | nil => simp [cacheInsert]
  | cons a as ih =>
    simp only [cacheInsert]
    cases (texs.find? (fun t => t.id = a)).map (·.props) with
    | none =>
      simp only [List.mem_cons, ih]
      try tauto
    | some q =>
      by_cases hc : texCmp p q
      · simp only [if_pos hc, List.mem_cons]
        try tauto
      · simp only [if_neg hc, List.mem_cons, ih]
        try tauto

/-! ### Heap access lemmas -/

theorem findTex_id {tm : TM} {tid : Nat} {t : CTexture}
    (h : findTex tm tid = some t) : t.id = tid := by
  have := List.find?_some h
  simpa using this

theorem findTex_mem {tm : TM} {tid : Nat} {t : CTexture}
    (h : findTex tm tid = some t) : t ∈ tm.texs :=
  List.mem_of_find?_eq_some h

@[simp] theorem setHandle_id (t : CTexture) (h : Nat) :
    (setHandle t h).id = t.id := by
  unfold setHandle; split <;> rfl

@[simp] theorem setHandle_handle (t : CTexture) (h : Nat) :
    (setHandle t h).handle = h := by
  unfold setHandle; split
  · omega
  · rfl

@[simp] theorem setHandle_state (t : CTexture) (h : Nat) :
    (setHandle t h).state = t.state := by
  unfold setHandle; split <;> rfl

@[simp] theorem setHandle_props (t : CTexture) (h : Nat) :
    (setHandle t h).props = t.props := by
  unfold setHandle; split <;> rfl

@[simp] theorem setHandle_selfSet (t : CTexture) (h : Nat) :
    (setHandle t h).selfSet = t.selfSet := by
  unfold setHandle; split <;> rfl

theorem find?_update_self (l : List CTexture) (tid : Nat)
    (f : CTexture → CTexture) (hf : ∀ t, (f t).id = t.id) :
    (l.map (fun t => if t.id = tid then f t else t)).find? (fun t => t.id = tid) =
      (l.find? (fun t => t.id = tid)).map f := by
  induction l with
  | nil => rfl
  | cons t ts ih =>
    by_cases hid : t.id = tid
    · simp [List.find?, hid, hf t]
    · simp [List.find?, hid, ih]

theorem find?_update_ne (l : List CTexture) (tid tid' : Nat)
    (f : CTexture → CTexture) (hf : ∀ t, (f t).id = t.id) (hne : tid' ≠ tid) :
    (l.map (fun t => if t.id = tid then f t else t)).find? (fun t => t.id = tid') =
      l.find? (fun t => t.id = tid') := by
  induction l with
  | nil => rfl
  | cons t ts ih =>
    by_cases hid : t.id = tid
    · rw [List.map_cons, if_pos hid, List.find?_cons_of_neg, List.find?_cons_of_neg]
      · exact ih
      · simp only [hid, decide_eq_true_eq]
        exact fun h => hne h.symm
      · simp only [hf t, hid, decide_eq_true_eq]
        exact fun h => hne h.symm
    · rw [List.map_cons, if_neg hid]
      by_cases hid' : t.id = tid'
      · rw [List.find?_cons_of_pos, List.find?_cons_of_pos] <;> simp [hid']
      · rw [List.find?_cons_of_neg, List.find?_cons_of_neg]
        · exact ih
        · simp [hid']
        · simp [hid']

theorem findTex_updateTex_self (tm : TM) (tid : Nat)
    (f : CTexture → CTexture) (hf : ∀ t, (f t).id = t.id) :
    findTex (updateTex tm tid f) tid = (findTex tm tid).map f :=
  find?_update_self tm.texs tid f hf

theorem findTex_updateTex_ne (tm : TM) (tid tid' : Nat)
    (f : CTexture → CTexture) (hf : ∀ t, (f t).id = t.id) (hne : tid' ≠ tid) :
    findTex (updateTex tm tid f) tid' = findTex tm tid' :=
  find?_update_ne tm.texs tid tid' f hf hne

@[simp] theorem updateTex_nextId (tm : TM) (tid : Nat) (f : CTexture → CTexture) :
    (updateTex tm tid f).nextId = tm.nextId := rfl

@[simp] theorem updateTex_cache (tm : TM) (tid : Nat) (f : CTexture → CTexture) :
    (updateTex tm tid f).cache = tm.cache := rfl

@[simp] theorem updateTex_hotload (tm : TM) (tid : Nat) (f : CTexture → CTexture) :
    (updateTex tm tid f).hotload = tm.hotload := rfl

@[simp] theorem updateTex_settingsFiles (tm : TM) (tid : Nat) (f : CTexture → CTexture) :
    (updateTex tm tid f).settingsFiles = tm.settingsFiles := rfl

@[simp] theorem updateTex_converter (tm : TM) (tid : Nat) (f : CTexture → CTexture) :
    (updateTex tm tid f).converter = tm.converter := rfl

@[simp] theorem updateTex_defaultHandle (tm : TM) (tid : Nat) (f : CTexture → CTexture) :
    (updateTex tm tid f).defaultHandle = tm.defaultHandle := rfl

@[simp] theorem updateTex_errorHandle (tm : TM) (tid : Nat) (f : CTexture → CTexture) :
    (updateTex tm tid f).errorHandle = tm.errorHandle := rfl

/-- A projection unaffected by the update function is unaffected by
`updateTex`, at every id. -/
theorem map_findTex_updateTex {β : Type} (g : CTexture → β) (tm : TM)
    (tid tid' : Nat) (f : CTexture → CTexture)
    (hf : ∀ t, (f t).id = t.id) (hg : ∀ t, g (f t) = g t) :
    ((findTex (updateTex tm tid f) tid').map g) = (findTex tm tid').map g := by
  by_cases h : tid' = tid
  · subst h
    rw [findTex_updateTex_self _ _ _ hf]
    cases findTex tm tid' <;> simp [hg]
  · rw [findTex_updateTex_ne _ _ _ _ hf h]

/-! ### Shape lemmas: which state components each operation can touch -/

theorem getSettingsFile_shape (env : Env) (tm : TM) (p : VfsPath) :
    ∃ sf, (getSettingsFile env tm p).2 = { tm with settingsFiles := sf } := by
  unfold getSettingsFile
  cases h : lookupAssoc tm.settingsFiles p with
  | some v => exact ⟨tm.settingsFiles, rfl⟩
  | none =>
    by_cases hf : (env.fileInfo p).isSome
    · simp only [hf, if_true]
      exact ⟨_, rfl⟩
    · simp only [hf, if_false]
      exact ⟨_, rfl⟩

theorem gcsAux_shape (env : Env) (tid : Nat) :
    ∀ (cs : List String) (p : VfsPath) (tm : TM),
    ∃ hl sf, (getConverterSettingsAux env tid cs p tm).2 =
      { tm with hotload := hl, settingsFiles := sf } := by
  intro cs
  induction cs with
  | nil => intro p tm; exact ⟨tm.hotload, tm.settingsFiles, rfl⟩
  | cons c cs ih =>
    intro p tm
    simp only [getConverterSettingsAux]
    rcases hsf : getSettingsFile env
        { tm with hotload := hotloadInsert tm.hotload (p ++ ["textures.xml"]) tid }
        (p ++ ["textures.xml"]) with ⟨f, tm2⟩
    rcases hrec : getConverterSettingsAux env tid cs (p ++ [c]) tm2 with ⟨rest, tm3⟩
    simp only [hsf, hrec]
    obtain ⟨sf2, hsf2⟩ := getSettingsFile_shape env
      { tm with hotload := hotloadInsert tm.hotload (p ++ ["textures.xml"]) tid }
      (p ++ ["textures.xml"])
    rw [hsf] at hsf2
    obtain ⟨hl3, sf3, hrec3⟩ := ih (p ++ [c]) tm2
    rw [hrec] at hrec3
    subst hsf2
    exact ⟨hl3, sf3, hrec3⟩

theorem getConverterSettings_shape (env : Env) (tm : TM) (t : CTexture) :
    ∃ hl sf, (getConverterSettings env tm t).2 =
      { tm with hotload := hl, settingsFiles := sf } := by
  unfold getConverterSettings
  rcases haux : getConverterSettingsAux env t.id t.props.path [] tm with ⟨files, tm1⟩
  obtain ⟨hl, sf, hshape⟩ := gcsAux_shape env t.id t.props.path [] tm
  rw [haux] at hshape
  exact ⟨hl, sf, hshape⟩

theorem looseCachePathFn_shape (env : Env) (tm : TM) (t : CTexture) :
    ∃ hl sf, (looseCachePathFn env tm t).2 =
      { tm with hotload := hl, settingsFiles := sf } := by
  cases hfi : env.fileInfo t.props.path with
  | none =>
    refine ⟨tm.hotload, tm.settingsFiles, ?_⟩
    simp only [looseCachePathFn, hfi]
  | some fi =>
    rcases hGCS : getConverterSettings env tm t with ⟨settings, tm1⟩
    obtain ⟨hl, sf, hshape⟩ := getConverterSettings_shape env tm t
    rw [hGCS] at hshape
    refine ⟨hl, sf, ?_⟩
    simp only [looseCachePathFn, hfi, hGCS]
    exact hshape

theorem loadTexture_shape (env : Env) (tm : TM) (tid : Nat) (path : VfsPath) :
    ∃ texs', loadTexture env tm tid path = { tm with texs := texs' } := by
  unfold loadTexture
  split
  · exact ⟨tm.texs, rfl⟩
  · split
    · exact ⟨_, rfl⟩
    · split
      · exact ⟨_, rfl⟩
      · exact ⟨_, rfl⟩

/-- `LoadTexture` only rewrites the handle and base colour of the target
entry: every projection of every entry other than handle/baseColour is
untouched. -/
theorem map_findTex_loadTexture {β : Type} (g : CTexture → β) (env : Env)
    (tm : TM) (tid tid' : Nat) (path : VfsPath)
    (hg1 : ∀ t h, g (setHandle t h) = g t)
    (hg2 : ∀ t c, g { t with baseColour := c } = g t) :
    (findTex (loadTexture env tm tid path) tid').map g = (findTex tm tid').map g := by
  unfold loadTexture
  split
  · rfl
  · split
    · exact map_findTex_updateTex g tm tid tid' _ (fun t => setHandle_id t _)
        (fun t => hg1 t _)
    · split
      · rw [map_findTex_updateTex g _ tid tid' _ (fun t => setHandle_id t _)
            (fun t => hg1 t _)]
        exact map_findTex_updateTex g tm tid tid' _ (fun t => rfl) (fun t => hg2 t _)
      · rw [map_findTex_updateTex g _ tid tid' _ (fun t => setHandle_id t _)
            (fun t => hg1 t _)]
        exact map_findTex_updateTex g tm tid tid' _ (fun t => rfl) (fun t => hg2 t _)

theorem loadTexture_handle_loadfail (env : Env) (tm : TM) (tid : Nat)
    (path : VfsPath) (t : CTexture) (hfind : findTex tm tid = some t)
    (hgl : env.disableGL = false) (hload : env.glLoad path = none) :
    handleOf (loadTexture env tm tid path) tid = some tm.errorHandle := by
  unfold loadTexture
  rw [hgl, hload]
  simp only [Bool.false_eq_true, if_false]
  unfold handleOf
  rw [findTex_updateTex_self _ _ _ (fun t => setHandle_id t _), hfind]
  simp

theorem loadTexture_handle_uploadfail (env : Env) (tm : TM) (tid : Nat)
    (path : VfsPath) (t : CTexture) (h : Nat) (hfind : findTex tm tid = some t)
    (hgl : env.disableGL = false) (hload : env.glLoad path = some h)
    (hup : env.glUpload h = false) :
    handleOf (loadTexture env tm tid path) tid = some tm.errorHandle := by
  unfold loadTexture
  rw [hgl, hload]
  simp only [Bool.false_eq_true, if_false, hup]
  unfold handleOf
  rw [findTex_updateTex_self _ _ _ (fun t => setHandle_id t _)]
  rw [findTex_updateTex_self tm tid
    (fun t => { t with baseColour := env.glAvgColour h }) (fun t => rfl), hfind]
  simp

theorem loadTexture_handle_success (env : Env) (tm : TM) (tid : Nat)
    (path : VfsPath) (t : CTexture) (h : Nat) (hfind : findTex tm tid = some t)
    (hgl : env.disableGL = false) (hload : env.glLoad path = some h)
    (hup : env.glUpload h = true) :
    handleOf (loadTexture env tm tid path) tid = some h := by
  unfold loadTexture
  rw [hgl, hload]
  simp only [Bool.false_eq_true, if_false, hup, if_true]
  unfold handleOf
  rw [findTex_updateTex_self _ _ _ (fun t => setHandle_id t _)]
  rw [findTex_updateTex_self tm tid
    (fun t => { t with baseColour := env.glAvgColour h }) (fun t => rfl), hfind]
  simp

/-- `TryLoadingCached` can only touch entry handles/base colours, the
hotload index, and the settings-file cache: its result keeps every other
state component, and every projection of every entry that ignores handle
and base colour. -/
theorem tryLoadingCached_split (env : Env) (tm : TM) (tid : Nat) :
    ∃ texs' hl sf, (tryLoadingCached env tm tid).2 =
      { tm with texs := texs', hotload := hl, settingsFiles := sf } ∧
      ∀ {β : Type} (g : CTexture → β),
        (∀ t h, g (setHandle t h) = g t) →
        (∀ t c, g { t with baseColour := c } = g t) →
        ∀ tid', (findTex (tryLoadingCached env tm tid).2 tid').map g =
          (findTex tm tid').map g := by
  cases hfind : findTex tm tid with
  | none =>
    refine ⟨tm.texs, tm.hotload, tm.settingsFiles, ?_, ?_⟩
    · simp only [tryLoadingCached, hfind]
    · intro β g _ _ tid'
      simp only [tryLoadingCached, hfind]
  | some t =>
    by_cases hcan : canUseArchiveCache env t.props.path (archiveCachePathOf t.props.path)
    · obtain ⟨texs', hshape⟩ := loadTexture_shape env tm tid (archiveCachePathOf t.props.path)
      refine ⟨texs', tm.hotload, tm.settingsFiles, ?_, ?_⟩
      · simp only [tryLoadingCached, hfind, hcan, if_true]
        rw [hshape]
      · intro β g hg1 hg2 tid'
        simp only [tryLoadingCached, hfind, hcan, if_true]
        exact map_findTex_loadTexture g env tm tid tid' _ hg1 hg2
    · by_cases hsrc : (env.fileInfo t.props.path).isNone
      · refine ⟨(updateTex tm tid (fun u => setHandle u tm.errorHandle)).texs,
          tm.hotload, tm.settingsFiles, ?_, ?_⟩
        · simp only [tryLoadingCached, hfind, hcan, if_false, hsrc, if_true]
          rfl
        · intro β g hg1 hg2 tid'
          simp only [tryLoadingCached, hfind, hcan, if_false, hsrc, if_true]
          exact map_findTex_updateTex g tm tid tid' _
            (fun u => setHandle_id u _) (fun u => hg1 u _)
      · rcases hlcp : looseCachePathFn env tm t with ⟨lcp, tm1⟩
        obtain ⟨hl, sf, hshape⟩ := looseCachePathFn_shape env tm t
        rw [hlcp] at hshape
        simp only at hshape
        by_cases hloose : (env.fileInfo lcp).isSome
        · obtain ⟨texs', hload⟩ := loadTexture_shape env tm1 tid lcp
          refine ⟨texs', hl, sf, ?_, ?_⟩
          · simp only [tryLoadingCached, hfind, hcan, if_false, hsrc, hloose, hlcp, if_true]
            rw [hload, hshape]
            simp
          · intro β g hg1 hg2 tid'
            simp only [tryLoadingCached, hfind, hcan, if_false, hsrc, hloose, hlcp, if_true,
              Bool.false_eq_true]
            rw [map_findTex_loadTexture g env tm1 tid tid' _ hg1 hg2]
            rw [hshape]
            simp [findTex]
        · refine ⟨tm.texs, hl, sf, ?_, ?_⟩
          · simp only [tryLoadingCached, hfind, hcan, if_false, hsrc, hloose, hlcp]
            rw [hshape]
            simp
          · intro β g hg1 hg2 tid'
            simp only [tryLoadingCached, hfind, hcan, if_false, hsrc, hloose, hlcp]
            rw [hshape]
            simp [findTex]

theorem tryLoadingCached_converter (env : Env) (tm : TM) (tid : Nat) :
    ((tryLoadingCached env tm tid).2).converter = tm.converter := by
  obtain ⟨texs', hl, sf, hshape, _⟩ := tryLoadingCached_split env tm tid
  rw [hshape]

theorem tryLoadingCached_errorHandle (env : Env) (tm : TM) (tid : Nat) :
    ((tryLoadingCached env tm tid).2).errorHandle = tm.errorHandle := by
  obtain ⟨texs', hl, sf, hshape, _⟩ := tryLoadingCached_split env tm tid
  rw [hshape]

theorem tryLoadingCached_state (env : Env) (tm : TM) (tid tid' : Nat) :
    stateOf (tryLoadingCached env tm tid).2 tid' = stateOf tm tid' := by
  obtain ⟨texs', hl, sf, _, hproj⟩ := tryLoadingCached_split env tm tid
  exact hproj (·.state) (fun t h => setHandle_state t h) (fun t c => rfl) tid'

theorem tryLoadingCached_selfSet (env : Env) (tm : TM) (tid tid' : Nat) :
    ((findTex (tryLoadingCached env tm tid).2 tid').map (·.selfSet)) =
      (findTex tm tid').map (·.selfSet) := by
  obtain ⟨texs', hl, sf, _, hproj⟩ := tryLoadingCached_split env tm tid
  exact hproj (·.selfSet) (fun t h => setHandle_selfSet t h) (fun t c => rfl) tid'

theorem tryLoadingCached_props (env : Env) (tm : TM) (tid tid' : Nat) :
    propsOf (tryLoadingCached env tm tid).2 tid' = propsOf tm tid' := by
  obtain ⟨texs', hl, sf, _, hproj⟩ := tryLoadingCached_split env tm tid
  exact hproj (·.props) (fun t h => setHandle_props t h) (fun t c => rfl) tid'

theorem tryLoadingCached_isSome (env : Env) (tm : TM) (tid tid' : Nat) :
    (findTex (tryLoadingCached env tm tid).2 tid').isSome =
      (findTex tm tid').isSome := by
  obtain ⟨texs', hl, sf, _, hproj⟩ := tryLoadingCached_split env tm tid
  have := hproj (fun _ => ()) (fun t h => rfl) (fun t c => rfl) tid'
  cases h1 : findTex (tryLoadingCached env tm tid).2 tid' <;>
    cases h2 : findTex tm tid' <;> rw [h1, h2] at this <;> simp_all

/-- The missing-source branch of `TryLoadingCached`: archive unusable and
no source-file info → error placeholder substituted, reported handled. -/
theorem tryLoadingCached_missing_source (env : Env) (tm : TM) (tid : Nat)
    (t : CTexture) (hfind : findTex tm tid = some t)
    (hcan : canUseArchiveCache env t.props.path (archiveCachePathOf t.props.path) = false)
    (hsrc : env.fileInfo t.props.path = none) :
    tryLoadingCached env tm tid =
      (true, updateTex tm tid (fun u => setHandle u tm.errorHandle)) := by
  simp only [tryLoadingCached, hfind, hcan, Bool.false_eq_true, if_false, hsrc,
    Option.isNone_none, if_true]

/-- The archive branch of `TryLoadingCached`: usable archive cache →
loaded from the archive path, reported handled. -/
theorem tryLoadingCached_archive (env : Env) (tm : TM) (tid : Nat)
    (t : CTexture) (hfind : findTex tm tid = some t)
    (hcan : canUseArchiveCache env t.props.path (archiveCachePathOf t.props.path) = true) :
    tryLoadingCached env tm tid =
      (true, loadTexture env tm tid (archiveCachePathOf t.props.path)) := by
  simp only [tryLoadingCached, hfind, hcan, if_true]

/-- `ConvertTexture` on a live entry: the hotload index and settings
cache may grow, and exactly one job for that entry is appended to the
converter's queue; nothing else changes. -/
theorem convertTexture_found (env : Env) (tm : TM) (tid : Nat) (t : CTexture)
    (hfind : findTex tm tid = some t) :
    ∃ hl sf j, convertTexture env tm tid =
      { tm with
          hotload := hl
          settingsFiles := sf
          converter := ⟨tm.converter.jobs ++ [j], tm.converter.results⟩ } ∧
      j.tid = tid := by
  rcases hlcp : looseCachePathFn env tm t with ⟨lcp, tm1⟩
  obtain ⟨hl1, sf1, hshape1⟩ := looseCachePathFn_shape env tm t
  rw [hlcp] at hshape1
  simp only at hshape1
  rcases hGCS : getConverterSettings env tm1 t with ⟨settings, tm2⟩
  obtain ⟨hl2, sf2, hshape2⟩ := getConverterSettings_shape env tm1 t
  rw [hGCS] at hshape2
  simp only at hshape2
  subst hshape1
  refine ⟨hl2, sf2, ⟨tid, t.props.path, lcp, settings⟩, ?_, rfl⟩
  simp only [convertTexture, hfind, hlcp, hGCS]
  rw [hshape2]

/-! ### `MakeProgress` step lemmas -/

theorem pollStep_none (env : Env) (tm : TM) (hres : tm.converter.results = []) :
    pollStep env tm = none := by
  simp [pollStep, hres]

theorem pollStep_eq (env : Env) (tm : TM) (tid : Nat) (dest : VfsPath)
    (ok : Bool) (rest : List (Nat × VfsPath × Bool))
    (hres : tm.converter.results = (tid, dest, ok) :: rest) :
    pollStep env tm = some (updateTex
      (if ok then
        loadTexture env { tm with converter := { tm.converter with results := rest } } tid dest
      else
        updateTex { tm with converter := { tm.converter with results := rest } } tid
          (fun t => setHandle t tm.errorHandle))
      tid (fun t => { t with state := .LOADED })) := by
  simp only [pollStep, hres]

theorem makeProgress_of_poll (env : Env) (tm : TM) (tm1 : TM)
    (h : pollStep env tm = some tm1) : makeProgress env tm = (true, tm1) := by
  simp [makeProgress, h]

theorem makeProgress_busy (env : Env) (tm : TM)
    (hres : tm.converter.results = []) (hjobs : tm.converter.jobs ≠ []) :
    makeProgress env tm =
      match prefetchLoadStep env tm with
      | some tm1 => (true, tm1)
      | none => (false, tm) := by
  have hpoll := pollStep_none env tm hres
  have hbusy : tm.converter.isBusy = true := by
    simp only [ConvState.isBusy, hres, List.isEmpty_nil, Bool.and_true]
    cases h : tm.converter.jobs with
    | nil => exact absurd h hjobs
    | cons a as => simp [h]
  simp only [makeProgress, hpoll, hbusy, if_true]

theorem submitHighStep_eq (env : Env) (tm : TM) (tid : Nat)
    (hhigh : findFirstInState tm .HIGH_NEEDS_CONVERTING = some tid) :
    submitHighStep env tm = some (convertTexture env
      (updateTex tm tid (fun t => { t with state := .HIGH_IS_CONVERTING })) tid) := by
  simp only [submitHighStep, hhigh]

theorem prefetchLoadStep_eq (env : Env) (tm : TM) (tid : Nat)
    (hpfl : findFirstInState tm .PREFETCH_NEEDS_LOADING = some tid) :
    prefetchLoadStep env tm = some (updateTex (tryLoadingCached env tm tid).2 tid
      (fun t => { t with state :=
        if (tryLoadingCached env tm tid).1 then .LOADED
        else .PREFETCH_NEEDS_CONVERTING })) := by
  rcases htlc : tryLoadingCached env tm tid with ⟨ok, tm1⟩
  simp only [prefetchLoadStep, hpfl, htlc]

theorem prefetchLoadStep_inv (env : Env) (tm : TM) (tm1 : TM)
    (h : prefetchLoadStep env tm = some tm1) :
    ∃ tid, findFirstInState tm .PREFETCH_NEEDS_LOADING = some tid ∧
      tm1 = updateTex (tryLoadingCached env tm tid).2 tid
        (fun t => { t with state :=
          if (tryLoadingCached env tm tid).1 then .LOADED
          else .PREFETCH_NEEDS_CONVERTING }) := by
  cases hpfl : findFirstInState tm .PREFETCH_NEEDS_LOADING with
  | none => simp [prefetchLoadStep, hpfl] at h
  | some tid =>
    rw [prefetchLoadStep_eq env tm tid hpfl] at h
    refine ⟨tid, rfl, ?_⟩
    exact (Option.some_inj.mp h).symm

theorem makeProgress_idle_high (env : Env) (tm : TM) (tid : Nat)
    (hres : tm.converter.results = []) (hjobs : tm.converter.jobs = [])
    (hhigh : findFirstInState tm .HIGH_NEEDS_CONVERTING = some tid) :
    makeProgress env tm = (true, convertTexture env
      (updateTex tm tid (fun t => { t with state := .HIGH_IS_CONVERTING })) tid) := by
  have hpoll := pollStep_none env tm hres
  have hbusy : tm.converter.isBusy = false := by
    simp [ConvState.isBusy, hres, hjobs]
  simp only [makeProgress, hpoll, hbusy, Bool.false_eq_true, if_false,
    submitHighStep_eq env tm tid hhigh]

theorem makeProgress_idle_noHigh_pfl (env : Env) (tm : TM) (tid : Nat)
    (hres : tm.converter.results = []) (hjobs : tm.converter.jobs = [])
    (hhigh : findFirstInState tm .HIGH_NEEDS_CONVERTING = none)
    (hpfl : findFirstInState tm .PREFETCH_NEEDS_LOADING = some tid) :
    makeProgress env tm = (true, updateTex (tryLoadingCached env tm tid).2 tid
      (fun t => { t with state :=
        if (tryLoadingCached env tm tid).1 then .LOADED
        else .PREFETCH_NEEDS_CONVERTING })) := by
  have hpoll := pollStep_none env tm hres
  have hbusy : tm.converter.isBusy = false := by
    simp [ConvState.isBusy, hres, hjobs]
  have hsub : submitHighStep env tm = none := by
    simp [submitHighStep, hhigh]
  simp only [makeProgress, hpoll, hbusy, Bool.false_eq_true, if_false, hsub,
    prefetchLoadStep_eq env tm tid hpfl]

theorem makeProgress_idle_pfc (env : Env) (tm : TM) (tid : Nat)
    (hres : tm.converter.results = []) (hjobs : tm.converter.jobs = [])
    (hhigh : findFirstInState tm .HIGH_NEEDS_CONVERTING = none)
    (hpfl : findFirstInState tm .PREFETCH_NEEDS_LOADING = none)
    (hpfc : findFirstInState tm .PREFETCH_NEEDS_CONVERTING = some tid) :
    makeProgress env tm = (true, convertTexture env
      (updateTex tm tid (fun t => { t with state := .PREFETCH_IS_CONVERTING })) tid) := by
  have hpoll := pollStep_none env tm hres
  have hbusy : tm.converter.isBusy = false := by
    simp [ConvState.isBusy, hres, hjobs]
  have hsub : submitHighStep env tm = none := by
    simp [submitHighStep, hhigh]
  have hpflnone : prefetchLoadStep env tm = none := by
    simp [prefetchLoadStep, hpfl]
  have hsubp : submitPrefetchStep env tm = some (convertTexture env
      (updateTex tm tid (fun t => { t with state := .PREFETCH_IS_CONVERTING })) tid) := by
    simp only [submitPrefetchStep, hpfc]
  simp only [makeProgress, hpoll, hbusy, Bool.false_eq_true, if_false, hsub,
    hpflnone, hsubp]

theorem prefetchLoadStep_converter (env : Env) (tm : TM) (tm1 : TM)
    (h : prefetchLoadStep env tm = some tm1) : tm1.converter = tm.converter := by
  obtain ⟨tid, _, heq⟩ := prefetchLoadStep_inv env tm tm1 h
  rw [heq, updateTex_converter, tryLoadingCached_converter]

theorem stateOf_updateTex_setState (tm : TM) (tid : Nat) (s : TexState)
    (h : (findTex tm tid).isSome = true) :
    stateOf (updateTex tm tid (fun t => { t with state := s })) tid = some s := by
  unfold stateOf
  rw [findTex_updateTex_self tm tid (fun t => { t with state := s }) (fun t => rfl)]
  cases hf : findTex tm tid with
  | none => rw [hf] at h; simp at h
  | some t => simp

theorem prefetchLoadStep_no_new_converting (env : Env) (tm : TM) (tm1 : TM)
    (h : prefetchLoadStep env tm = some tm1) (tid' : Nat) (s : TexState)
    (hs : s = .HIGH_IS_CONVERTING ∨ s = .PREFETCH_IS_CONVERTING)
    (hpre : stateOf tm tid' ≠ some s) : stateOf tm1 tid' ≠ some s := by
  obtain ⟨tid, _, heq⟩ := prefetchLoadStep_inv env tm tm1 h
  subst heq
  by_cases hid : tid' = tid
  · subst hid
    unfold stateOf
    rw [findTex_updateTex_self ((tryLoadingCached env tm tid').2) tid'
      (fun t => { t with state :=
        if (tryLoadingCached env tm tid').1 then TexState.LOADED
        else TexState.PREFETCH_NEEDS_CONVERTING }) (fun t => rfl)]
    cases hf : findTex (tryLoadingCached env tm tid').2 tid' with
    | none => simp
    | some t =>
      simp only [Option.map_some']
      intro hcontra
      have h2 := Option.some_inj.mp hcontra
      simp only at h2
      rcases hs with rfl | rfl <;> revert h2 <;> split <;> simp
  · unfold stateOf
    rw [findTex_updateTex_ne ((tryLoadingCached env tm tid).2) tid tid'
      (fun t => { t with state :=
        if (tryLoadingCached env tm tid).1 then TexState.LOADED
        else TexState.PREFETCH_NEEDS_CONVERTING }) (fun t => rfl) hid]
    have hst := tryLoadingCached_state env tm tid tid'
    unfold stateOf at hst
    rw [hst]
    exact hpre

theorem loadTexture_isSome (env : Env) (tm : TM) (tid : Nat) (path : VfsPath)
    (tid' : Nat) :
    (findTex (loadTexture env tm tid path) tid').isSome =
      (findTex tm tid').isSome := by
  have h := map_findTex_loadTexture (fun _ => ()) env tm tid tid' path
    (fun t h => rfl) (fun t c => rfl)
  cases h1 : findTex (loadTexture env tm tid path) tid' <;>
    cases h2 : findTex tm tid' <;> rw [h1, h2] at h <;> simp_all

/-! ### `CreateTexture` lemmas -/

theorem find?_append_some {α : Type} {l1 l2 : List α} {p : α → Bool} {a : α}
    (h : l1.find? p = some a) : (l1 ++ l2).find? p = some a := by
  rw [List.find?_append, h]; rfl

theorem find?_append_none {α : Type} {l1 l2 : List α} {p : α → Bool}
    (h : l1.find? p = none) : (l1 ++ l2).find? p = l2.find? p := by
  rw [List.find?_append, h]; rfl

theorem findEquiv_some {tm : TM} {p : CTextureProperties} {tid : Nat}
    (h : findEquiv tm p = some tid) :
    tid ∈ tm.cache ∧ propsOf tm tid = some p := by
  have hmem := List.mem_of_find?_eq_some h
  have hpred := List.find?_some h
  refine ⟨hmem, ?_⟩
  cases hq : propsOf tm tid with
  | none => rw [hq] at hpred; simp at hpred
  | some q =>
    rw [hq] at hpred
    simp only [Bool.and_eq_true, Bool.not_eq_true'] at hpred
    have heq := (texCmp_equiv_iff_eq p q).mp ⟨hpred.1, hpred.2⟩
    rw [heq]

theorem findEquiv_none_not_equiv {tm : TM} {p : CTextureProperties} {tid : Nat}
    (h : findEquiv tm p = none) (htid : tid ∈ tm.cache) :
    propsOf tm tid ≠ some p := by
  intro hq
  have hpred := List.find?_eq_none.mp h tid htid
  rw [hq] at hpred
  simp [texCmp_self] at hpred

theorem findTex_lt_nextId {tm : TM} {tid : Nat} {t : CTexture} (hwf : tm.WF)
    (h : findTex tm tid = some t) : tid < tm.nextId := by
  have := hwf.1 t (findTex_mem h)
  rw [← findTex_id h]
  exact this

theorem findTex_nextId_none (tm : TM) (hwf : tm.WF) :
    findTex tm tm.nextId = none := by
  apply List.find?_eq_none.mpr
  intro t ht
  simp only [decide_eq_true_eq]
  exact Nat.ne_of_lt (hwf.1 t ht)

/-- The fresh texture object registered by `CreateTexture` on a cache
miss. -/
def freshTexture (tm : TM) (props : CTextureProperties) : CTexture :=
  ⟨tm.nextId, tm.defaultHandle, 0, .UNLOADED, props, true⟩

theorem createTexture_found {tm : TM} {p : CTextureProperties} {tid : Nat}
    (h : findEquiv tm p = some tid) : createTexture tm p = (tid, tm) := by
  simp only [createTexture, h]

theorem createTexture_not_found {tm : TM} {p : CTextureProperties}
    (h : findEquiv tm p = none) :
    createTexture tm p = (tm.nextId,
      { tm with
          texs := tm.texs ++ [freshTexture tm p]
          nextId := tm.nextId + 1
          cache := cacheInsert tm.texs p tm.nextId tm.cache
          hotload := hotloadInsert tm.hotload p.path tm.nextId }) := by
  simp only [createTexture, h, freshTexture]

theorem createTexture_snd_not_found {tm : TM} {p : CTextureProperties}
    (h : findEquiv tm p = none) :
    (createTexture tm p).2 =
      { tm with
          texs := tm.texs ++ [freshTexture tm p]
          nextId := tm.nextId + 1
          cache := cacheInsert tm.texs p tm.nextId tm.cache
          hotload := hotloadInsert tm.hotload p.path tm.nextId } := by
  rw [createTexture_not_found h]

theorem findTex_insert_new {tm : TM} {p : CTextureProperties} (hwf : tm.WF) :
    (tm.texs ++ [freshTexture tm p]).find? (fun t => t.id = tm.nextId) =
      some (freshTexture tm p) := by
  rw [find?_append_none (findTex_nextId_none tm hwf)]
  simp [freshTexture, List.find?]

theorem findTex_insert_old {tm : TM} {p : CTextureProperties} {tid : Nat}
    {t : CTexture} (hfind : findTex tm tid = some t) :
    (tm.texs ++ [freshTexture tm p]).find? (fun u => u.id = tid) = some t :=
  find?_append_some hfind

theorem findEquiv_after_insert (tm : TM) (p : CTextureProperties)
    (hwf : tm.WF) (h : findEquiv tm p = none) :
    findEquiv (createTexture tm p).2 p = some tm.nextId := by
  rw [createTexture_snd_not_found h]
  apply find?_eq_some_of_mem_unique
  · exact mem_cacheInsert.mpr (Or.inl rfl)
  · have hft : propsOf
        { tm with
            texs := tm.texs ++ [freshTexture tm p]
            nextId := tm.nextId + 1
            cache := cacheInsert tm.texs p tm.nextId tm.cache
            hotload := hotloadInsert tm.hotload p.path tm.nextId } tm.nextId =
        some p := by
      unfold propsOf findTex
      simp only
      rw [findTex_insert_new hwf]
      rfl
    rw [hft]
    simp [texCmp_self]
  · intro y hy hpy
    rcases mem_cacheInsert.mp hy with rfl | hyold
    · rfl
    · exfalso
      have hysome := hwf.2.2 y hyold
      cases hfy : findTex tm y with
      | none => rw [hfy] at hysome; simp at hysome
      | some ty =>
        have hft : propsOf
            { tm with
                texs := tm.texs ++ [freshTexture tm p]
                nextId := tm.nextId + 1
                cache := cacheInsert tm.texs p tm.nextId tm.cache
                hotload := hotloadInsert tm.hotload p.path tm.nextId } y =
            some ty.props := by
          unfold propsOf findTex
          simp only
          rw [findTex_insert_old hfy]
          rfl
        rw [hft] at hpy
        simp only [Bool.and_eq_true, Bool.not_eq_true'] at hpy
        have heq := (texCmp_equiv_iff_eq p ty.props).mp ⟨hpy.1, hpy.2⟩
        have hprops : propsOf tm y = some p := by
          unfold propsOf
          rw [hfy, Option.map_some', ← heq]
        exact findEquiv_none_not_equiv h hyold hprops

theorem createTexture_fst_found {tm : TM} {p : CTextureProperties} {tid : Nat}
    (h : findEquiv tm p = some tid) : (createTexture tm p).1 = tid := by
  rw [createTexture_found h]

theorem createTexture_fst_not_found {tm : TM} {p : CTextureProperties}
    (h : findEquiv tm p = none) : (createTexture tm p).1 = tm.nextId := by
  rw [createTexture_not_found h]

theorem propsOf_isSome {tm : TM} {tid : Nat} {p : CTextureProperties}
    (h : propsOf tm tid = some p) : ∃ t, findTex tm tid = some t := by
  unfold propsOf at h
  cases hf : findTex tm tid with
  | none => rw [hf] at h; simp at h
  | some t => exact ⟨t, rfl⟩

theorem propsOf_createTexture_new (tm : TM) (p : CTextureProperties)
    (hwf : tm.WF) (h : findEquiv tm p = none) :
    propsOf (createTexture tm p).2 tm.nextId = some p := by
  rw [createTexture_snd_not_found h]
  unfold propsOf findTex
  simp only
  rw [findTex_insert_new hwf]
  rfl

/-! ### Concrete fixtures for witnesses -/

/-- A freshly constructed manager (default handle 0, error handle 1),
before any texture is created. -/
def tmEmpty : TM := ⟨[], 0, [], [], [], ⟨[], []⟩, 0, 1⟩

/-- A sample property key. -/
def pA : CTextureProperties := ⟨["art", "a.png"], 1, 2, 3⟩

/-- A second sample key differing from `pA` only in anisotropy. -/
def pB : CTextureProperties := ⟨["art", "a.png"], 1, 2, 4⟩

/-! ### Claim theorems -/

/-- C1: `CreateTexture` returns reference-identical entries iff the
property keys are equivalent under `TextureCacheCmp` (which holds iff
all four fields are equal): repeated calls with equal keys return the
same shared entry, and differing keys yield distinct entries. -/
theorem createTexture_dedup (tm : TM) (p q : CTextureProperties) (hwf : tm.WF) :
    ((texCmp p q = false ∧ texCmp q p = false) ↔ p = q) ∧
    ((createTexture (createTexture tm p).2 q).1 = (createTexture tm p).1 ↔ p = q) := by
  refine ⟨texCmp_equiv_iff_eq p q, ?_⟩
  cases h1 : findEquiv tm p with
  | some tid =>
    have e2 : (createTexture tm p).2 = tm := by rw [createTexture_found h1]
    have e1 : (createTexture tm p).1 = tid := createTexture_fst_found h1
    rw [e1, e2]
    constructor
    · intro hid
      cases h2 : findEquiv tm q with
      | some tid2 =>
        rw [createTexture_fst_found h2] at hid
        subst hid
        have hp := (findEquiv_some h1).2
        have hq := (findEquiv_some h2).2
        rw [hq] at hp
        exact (Option.some_inj.mp hp).symm
      | none =>
        rw [createTexture_fst_not_found h2] at hid
        have hp := (findEquiv_some h1).2
        obtain ⟨t, hft⟩ := propsOf_isSome hp
        have hlt := findTex_lt_nextId hwf hft
        omega
    · intro hpq
      subst hpq
      exact createTexture_fst_found h1
  | none =>
    rw [createTexture_fst_not_found h1]
    constructor
    · intro hid
      cases h2 : findEquiv (createTexture tm p).2 q with
      | some tid2 =>
        rw [createTexture_fst_found h2] at hid
        subst hid
        have hq := (findEquiv_some h2).2
        have hp := propsOf_createTexture_new tm p hwf h1
        rw [hq] at hp
        exact (Option.some_inj.mp hp).symm
      | none =>
        rw [createTexture_fst_not_found h2] at hid
        rw [createTexture_snd_not_found h1] at hid
        simp at hid
    · intro hpq
      subst hpq
      exact createTexture_fst_found (findEquiv_after_insert tm p hwf h1)

/-- C1 witness: on a fresh manager, requesting the same key twice yields
the same entry, and a key differing only in anisotropy yields a
different entry. -/
theorem createTexture_dedup_witness :
    ((createTexture (createTexture tmEmpty pA).2 pA).1 = (createTexture tmEmpty pA).1) ∧
    ¬ ((createTexture (createTexture tmEmpty pA).2 pB).1 = (createTexture tmEmpty pA).1) := by
  constructor
  · exact (createTexture_dedup tmEmpty pA pA (by decide)).2.mpr rfl
  · intro hcontra
    have := (createTexture_dedup tmEmpty pA pB (by decide)).2.mp hcontra
    exact absurd this (by decide)

/-- C3: the archive-cache validity policy — no archive → false; archive
without source → true; strictly higher source priority → false; source
more than 2 seconds newer (with both file infos) → false; otherwise
(gap at most 2 seconds, or file info unavailable) → true, including a
gap of exactly 2 seconds. -/
theorem canUseArchiveCache_policy (env : Env) (sp ap : VfsPath) :
    (env.priority ap = none → canUseArchiveCache env sp ap = false) ∧
    (∀ pa, env.priority ap = some pa → env.priority sp = none →
      canUseArchiveCache env sp ap = true) ∧
    (∀ pa ps, env.priority ap = some pa → env.priority sp = some ps → pa < ps →
      canUseArchiveCache env sp ap = false) ∧
    (∀ pa ps si ai, env.priority ap = some pa → env.priority sp = some ps →
      ¬ pa < ps → env.fileInfo sp = some si → env.fileInfo ap = some ai →
      (si.mtime : Int) - (ai.mtime : Int) > 2 →
      canUseArchiveCache env sp ap = false) ∧
    (∀ pa ps si ai, env.priority ap = some pa → env.priority sp = some ps →
      ¬ pa < ps → env.fileInfo sp = some si → env.fileInfo ap = some ai →
      (si.mtime : Int) - (ai.mtime : Int) ≤ 2 →
      canUseArchiveCache env sp ap = true) ∧
    (∀ pa ps, env.priority ap = some pa → env.priority sp = some ps →
      ¬ pa < ps → (env.fileInfo sp = none ∨ env.fileInfo ap = none) →
      canUseArchiveCache env sp ap = true) ∧
    (∀ pa ps si ai, env.priority ap = some pa → env.priority sp = some ps →
      ¬ pa < ps → env.fileInfo sp = some si → env.fileInfo ap = some ai →
      (si.mtime : Int) = (ai.mtime : Int) + 2 →
      canUseArchiveCache env sp ap = true) := by
  refine ⟨?_, ?_, ?_, ?_, ?_, ?_, ?_⟩
  · intro h
    simp [canUseArchiveCache, h]
  · intro pa hap hsp
    simp [canUseArchiveCache, hap, hsp]
  · intro pa ps hap hsp hlt
    simp [canUseArchiveCache, hap, hsp, hlt]
  · intro pa ps si ai hap hsp hnlt hfs hfa hgt
    simp [canUseArchiveCache, hap, hsp, hnlt, hfs, hfa, hgt]
  · intro pa ps si ai hap hsp hnlt hfs hfa hle
    simp [canUseArchiveCache, hap, hsp, hnlt, hfs, hfa, not_lt.mpr hle]
  · intro pa ps hap hsp hnlt hnone
    rcases hnone with h | h <;> simp [canUseArchiveCache, hap, hsp, hnlt, h]
  · intro pa ps si ai hap hsp hnlt hfs hfa heq
    have hle : (si.mtime : Int) - (ai.mtime : Int) ≤ 2 := by omega
    simp [canUseArchiveCache, hap, hsp, hnlt, hfs, hfa, not_lt.mpr hle]

/-- A concrete VFS for exercising the validity policy: `shp` is a
higher-priority source; `s1` is 3 seconds newer than the archive; `s2`
exactly 2 seconds newer. -/
def envC3 : Env :=
  { disableGL := true
    priority := fun p =>
      if p = ["shp"] then some 5
      else if p = ["s1"] then some 2
      else if p = ["s2"] then some 2
      else if p = ["arch"] then some 2
      else none
    fileInfo := fun p =>
      if p = ["s1"] then some ⟨10, 100⟩
      else if p = ["s2"] then some ⟨10, 99⟩
      else if p = ["arch"] then some ⟨10, 97⟩
      else none
    glLoad := fun _ => none
    glUpload := fun _ => false
    glAvgColour := fun _ => 0
    loadSettings := fun _ => 0
    computeSettings := fun _ _ => []
    md5 := fun _ => fun _ => 0 }

/-- C3 witness: the five concrete policy cases of the spec's table. -/
theorem canUseArchiveCache_policy_witness :
    canUseArchiveCache envC3 ["missing"] ["noarch"] = false ∧
    canUseArchiveCache envC3 ["missing"] ["arch"] = true ∧
    canUseArchiveCache envC3 ["shp"] ["arch"] = false ∧
    canUseArchiveCache envC3 ["s1"] ["arch"] = false ∧
    canUseArchiveCache envC3 ["s2"] ["arch"] = true := by
  refine ⟨?_, ?_, ?_, ?_, ?_⟩
  · exact (canUseArchiveCache_policy envC3 _ _).1 rfl
  · exact (canUseArchiveCache_policy envC3 _ _).2.1 2 rfl rfl
  · exact (canUseArchiveCache_policy envC3 _ _).2.2.1 2 5 rfl rfl (by decide)
  · exact (canUseArchiveCache_policy envC3 _ _).2.2.2.1 2 2 ⟨10, 100⟩ ⟨10, 97⟩
      rfl rfl (by decide) rfl rfl (by decide)
  · exact (canUseArchiveCache_policy envC3 _ _).2.2.2.2.2.2 2 2 ⟨10, 99⟩ ⟨10, 97⟩
      rfl rfl (by decide) rfl rfl (by decide)

/-- C10: `Prefetch` on an entry in any state other than `UNLOADED`
leaves the whole manager state — in particular the entry's state and
handle — unchanged. -/
theorem prefetch_nonUnloaded_noop (tm : TM) (tid : Nat) (t : CTexture)
    (hfind : findTex tm tid = some t) (hstate : t.state ≠ .UNLOADED) :
    prefetch tm tid = tm := by
  simp [prefetch, hfind, hstate]

/-- A loaded entry registered in a one-texture manager. -/
def texL : CTexture := ⟨0, 5, 0, .LOADED, pA, true⟩

/-- A manager holding just `texL`. -/
def tmL : TM := ⟨[texL], 1, [0], [(pA.path, [0])], [], ⟨[], []⟩, 0, 1⟩

/-- C10 witness: prefetching a `LOADED` entry changes nothing. -/
theorem prefetch_nonUnloaded_noop_witness : prefetch tmL 0 = tmL :=
  prefetch_nonUnloaded_noop tmL 0 texL (by decide) (by decide)

theorem foldl_hotload_invariant (f : TM → Nat → TM)
    (hf : ∀ acc tid, (f acc tid).hotload = acc.hotload) :
    ∀ (tids : List Nat) (acc : TM), (tids.foldl f acc).hotload = acc.hotload := by
  intro tids
  induction tids with
  | nil => intro acc; rfl
  | cons x xs ih =>
    intro acc
    rw [List.foldl_cons, ih]
    exact hf acc x

/-- C9 (amended): `ReloadChangedFile` never modifies the hotload index —
expired weak references under the notified path are skipped by the
`lock()` test but not removed. -/
theorem reload_hotload_unchanged (tm : TM) (path : VfsPath) :
    (reloadChangedFile tm path).hotload = tm.hotload := by
  simp only [reloadChangedFile]
  cases h : lookupAssoc tm.hotload path with
  | none => rfl
  | some tids =>
    rw [foldl_hotload_invariant reloadOne
      (fun acc tid => by unfold reloadOne; split <;> rfl) tids _]

/-- C9 fixture: a hotload registration whose texture object no longer
exists (an expired weak reference). -/
def tmStale : TM := ⟨[], 0, [], [(["f.png"], [5])], [], ⟨[], []⟩, 0, 1⟩

/-- C9 counterexample: an expired weak reference registered under the
notified path is still present in the hotload index after
`ReloadChangedFile` returns — nothing is pruned. -/
theorem reload_no_prune_cex :
    5 ∈ hotloadLookup tmStale ["f.png"] ∧
    findTex tmStale 5 = none ∧
    5 ∈ hotloadLookup (reloadChangedFile tmStale ["f.png"]) ["f.png"] ∧
    findTex (reloadChangedFile tmStale ["f.png"]) 5 = none := by
  decide

theorem handleOf_updateTex_setState (tm : TM) (tid tid' : Nat) (s : TexState) :
    handleOf (updateTex tm tid (fun t => { t with state := s })) tid' =
      handleOf tm tid' := by
  unfold handleOf
  exact map_findTex_updateTex (·.handle) tm tid tid'
    (fun t => { t with state := s }) (fun t => rfl) (fun t => rfl)

theorem handleOf_updateTex_setHandle (tm : TM) (tid : Nat) (h : Nat)
    (hsome : (findTex tm tid).isSome = true) :
    handleOf (updateTex tm tid (fun t => setHandle t h)) tid = some h := by
  unfold handleOf
  rw [findTex_updateTex_self tm tid (fun t => setHandle t h)
    (fun t => setHandle_id t h)]
  cases hf : findTex tm tid with
  | none => rw [hf] at hsome; simp at hsome
  | some t => simp

/-- C4: polling a completed conversion marks the entry `LOADED`
unconditionally — the conversion's success loads the produced artifact
into the entry's handle, its failure substitutes the error placeholder —
and the entry never re-enters a converting state from this step. -/
theorem pollCompletion_terminal (env : Env) (tm : TM) (tid : Nat)
    (dest : VfsPath) (ok : Bool) (rest : List (Nat × VfsPath × Bool))
    (t : CTexture) (hres : tm.converter.results = (tid, dest, ok) :: rest)
    (halive : findTex tm tid = some t) :
    (makeProgress env tm).1 = true ∧
    stateOf (makeProgress env tm).2 tid = some .LOADED ∧
    (ok = false → handleOf (makeProgress env tm).2 tid = some tm.errorHandle) ∧
    (∀ h, ok = true → env.disableGL = false → env.glLoad dest = some h →
      env.glUpload h = true → handleOf (makeProgress env tm).2 tid = some h) := by
  have hpoll := pollStep_eq env tm tid dest ok rest hres
  have hmp := makeProgress_of_poll env tm _ hpoll
  rw [hmp]
  have halive' : findTex { tm with converter := { tm.converter with results := rest } } tid = some t := halive
  refine ⟨rfl, ?_, ?_, ?_⟩
  · apply stateOf_updateTex_setState
    cases ok with
    | true =>
      simp only [if_true]
      rw [loadTexture_isSome, halive']
      rfl
    | false =>
      simp only [Bool.false_eq_true, if_false]
      rw [findTex_updateTex_self _ tid (fun u => setHandle u tm.errorHandle)
        (fun u => setHandle_id u _), halive']
      rfl
  · intro hok
    subst hok
    simp only [Bool.false_eq_true, if_false]
    rw [handleOf_updateTex_setState]
    apply handleOf_updateTex_setHandle
    rw [halive']
    rfl
  · intro h hok hgl hload hup
    subst hok
    simp only [if_true]
    rw [handleOf_updateTex_setState]
    exact loadTexture_handle_success env _ tid dest t h halive' hgl hload hup

/-- A texture mid-conversion, plus a manager whose converter has one
completed (failed) job for it awaiting `Poll`. -/
def texC : CTexture := ⟨0, 0, 0, .HIGH_IS_CONVERTING, pA, true⟩

/-- Manager fixture for the C4 witness: one failed conversion result. -/
def tmConv : TM :=
  ⟨[texC], 1, [0], [(pA.path, [0])], [], ⟨[], [(0, ["d"], false)]⟩, 0, 1⟩

/-- C4 witness: polling the failed conversion yields `LOADED` with the
error placeholder handle. -/
theorem pollCompletion_terminal_witness :
    (makeProgress envC3 tmConv).1 = true ∧
    stateOf (makeProgress envC3 tmConv).2 0 = some .LOADED ∧
    handleOf (makeProgress envC3 tmConv).2 0 = some 1 := by
  have h := pollCompletion_terminal envC3 tmConv 0 ["d"] false [] texC rfl rfl
  exact ⟨h.1, h.2.1, h.2.2.1 rfl⟩

/-- C5: `TryLoad` in `UNLOADED`/`PREFETCH_NEEDS_LOADING` attempts the
cache load, reaching `LOADED` on success and `HIGH_NEEDS_CONVERTING` on
a miss; in `PREFETCH_NEEDS_CONVERTING` it escalates directly to
`HIGH_NEEDS_CONVERTING` without a cache-load attempt; in any other state
it changes nothing; and it returns `true` iff the entry's state is
`LOADED` afterwards. -/
theorem tryLoad_transitions (env : Env) (tm : TM) (tid : Nat) (t : CTexture)
    (hfind : findTex tm tid = some t) (hself : t.selfSet = true) :
    ((t.state = .UNLOADED ∨ t.state = .PREFETCH_NEEDS_LOADING) →
      ((tryLoadingCached env tm tid).1 = true →
        tryLoad env tm tid = (true, updateTex (tryLoadingCached env tm tid).2 tid
          (fun u => { u with state := .LOADED }))) ∧
      ((tryLoadingCached env tm tid).1 = false →
        tryLoad env tm tid = (false, updateTex (tryLoadingCached env tm tid).2 tid
          (fun u => { u with state := .HIGH_NEEDS_CONVERTING })))) ∧
    (t.state = .PREFETCH_NEEDS_CONVERTING →
      tryLoad env tm tid = (false, updateTex tm tid
        (fun u => { u with state := .HIGH_NEEDS_CONVERTING }))) ∧
    (t.state ≠ .UNLOADED → t.state ≠ .PREFETCH_NEEDS_LOADING →
      t.state ≠ .PREFETCH_NEEDS_CONVERTING →
      tryLoad env tm tid = (decide (t.state = .LOADED), tm)) ∧
    ((tryLoad env tm tid).1 = true ↔
      stateOf (tryLoad env tm tid).2 tid = some .LOADED) := by
  refine ⟨?_, ?_, ?_, ?_⟩
  · intro hstates
    have hne : t.state ≠ .PREFETCH_NEEDS_CONVERTING := by
      rcases hstates with h | h <;> rw [h] <;> simp
    have hcond : t.state = .UNLOADED ∨ t.state = .PREFETCH_NEEDS_LOADING ∨
        t.state = .PREFETCH_NEEDS_CONVERTING := by tauto
    constructor
    · intro hok
      rcases htlc : tryLoadingCached env tm tid with ⟨ok, tm2⟩
      rw [htlc] at hok
      simp only at hok
      subst hok
      have hsome2 : (findTex tm2 tid).isSome = true := by
        have := tryLoadingCached_isSome env tm tid tid
        rw [htlc, hfind] at this
        exact this
      simp only [tryLoad, hfind, if_pos hcond, hself, if_true, if_pos hne, htlc]
      rw [stateOf_updateTex_setState _ _ _ hsome2]
      simp
    · intro hok
      rcases htlc : tryLoadingCached env tm tid with ⟨ok, tm2⟩
      rw [htlc] at hok
      simp only at hok
      subst hok
      have hsome2 : (findTex tm2 tid).isSome = true := by
        have := tryLoadingCached_isSome env tm tid tid
        rw [htlc, hfind] at this
        exact this
      simp only [tryLoad, hfind, if_pos hcond, hself, if_true, if_pos hne, htlc,
        Bool.false_eq_true, if_false]
      rw [stateOf_updateTex_setState _ _ _ hsome2]
      simp
  · intro hstate
    have hcond : t.state = .UNLOADED ∨ t.state = .PREFETCH_NEEDS_LOADING ∨
        t.state = .PREFETCH_NEEDS_CONVERTING := Or.inr (Or.inr hstate)
    have hne : ¬ t.state ≠ .PREFETCH_NEEDS_CONVERTING := fun h => h hstate
    have hsome : (findTex tm tid).isSome = true := by rw [hfind]; rfl
    simp only [tryLoad, hfind, if_pos hcond, hself, if_true, if_neg hne]
    rw [stateOf_updateTex_setState _ _ _ hsome]
    simp
  · intro h1 h2 h3
    have hcond : ¬ (t.state = .UNLOADED ∨ t.state = .PREFETCH_NEEDS_LOADING ∨
        t.state = .PREFETCH_NEEDS_CONVERTING) := by tauto
    simp only [tryLoad, hfind, if_neg hcond]
    simp [stateOf, hfind]
  · simp only [tryLoad, hfind]
    generalize (if t.state = TexState.UNLOADED ∨ t.state = TexState.PREFETCH_NEEDS_LOADING ∨
        t.state = TexState.PREFETCH_NEEDS_CONVERTING then
        if t.selfSet = true then
          if t.state ≠ TexState.PREFETCH_NEEDS_CONVERTING then
            match tryLoadingCached env tm tid with
            | (ok, tm2) =>
              if ok = true then updateTex tm2 tid (fun u => { u with state := TexState.LOADED })
              else updateTex tm2 tid (fun u => { u with state := TexState.HIGH_NEEDS_CONVERTING })
          else updateTex tm tid (fun u => { u with state := TexState.HIGH_NEEDS_CONVERTING })
        else tm
      else tm) = tm1
    simp

/-- An `UNLOADED` entry registered in a one-texture manager. -/
def texU0 : CTexture := ⟨0, 0, 0, .UNLOADED, pA, true⟩

/-- A manager holding just `texU0`. -/
def tmU : TM := ⟨[texU0], 1, [0], [(pA.path, [0])], [], ⟨[], []⟩, 0, 1⟩

/-- C5 witness: an `UNLOADED` entry whose source is missing (archive
unusable) is handled by the cache-load attempt and ends `LOADED`. -/
theorem tryLoad_transitions_witness :
    tryLoad envC3 tmU 0 = (true, updateTex (tryLoadingCached envC3 tmU 0).2 0
      (fun u => { u with state := .LOADED })) :=
  ((tryLoad_transitions envC3 tmU 0 texU0 (by decide) rfl).1 (Or.inl rfl)).1 (by decide)

/-! ### `ReloadChangedFile` effect lemmas -/

theorem reloadOne_defaultHandle (acc : TM) (tid : Nat) :
    (reloadOne acc tid).defaultHandle = acc.defaultHandle := by
  unfold reloadOne
  split <;> rfl

theorem reloadOne_settingsFiles (acc : TM) (tid : Nat) :
    (reloadOne acc tid).settingsFiles = acc.settingsFiles := by
  unfold reloadOne
  split <;> rfl

theorem reloadOne_map {β : Type} (g : CTexture → β)
    (hg1 : ∀ t h, g (setHandle t h) = g t)
    (hg2 : ∀ t, g { t with state := TexState.UNLOADED } = g t)
    (acc : TM) (tid tid' : Nat) :
    (findTex (reloadOne acc tid) tid').map g = (findTex acc tid').map g := by
  unfold reloadOne
  split
  · rw [map_findTex_updateTex g acc tid tid'
      (fun t => setHandle { t with state := TexState.UNLOADED } acc.defaultHandle)
      (fun t => by rw [setHandle_id]) (fun t => by rw [hg1, hg2])]
  · rfl

theorem reloadOne_isSome (acc : TM) (tid tid' : Nat) :
    (findTex (reloadOne acc tid) tid').isSome = (findTex acc tid').isSome := by
  have h := reloadOne_map (fun _ => ()) (fun t h => rfl) (fun t => rfl) acc tid tid'
  cases h1 : findTex (reloadOne acc tid) tid' <;>
    cases h2 : findTex acc tid' <;> rw [h1, h2] at h <;> simp_all

theorem reloadOne_findTex_ne (acc : TM) (tid tid' : Nat) (hne : tid' ≠ tid) :
    findTex (reloadOne acc tid) tid' = findTex acc tid' := by
  unfold reloadOne
  split
  · exact findTex_updateTex_ne acc tid tid'
      (fun t => setHandle { t with state := TexState.UNLOADED } acc.defaultHandle)
      (fun t => by rw [setHandle_id]) hne
  · rfl

theorem reload_foldl_untouched (xs : List Nat) :
    ∀ (acc : TM) (tid : Nat), tid ∉ xs →
      findTex (xs.foldl reloadOne acc) tid = findTex acc tid := by
  induction xs with
  | nil => intro acc tid _; rfl
  | cons x xs ih =>
    intro acc tid hnot
    rw [List.foldl_cons, ih _ tid (fun h => hnot (List.mem_cons_of_mem x h)),
      reloadOne_findTex_ne acc x tid (fun h => hnot (h ▸ List.mem_cons_self x xs))]

theorem reload_foldl_defaultHandle (xs : List Nat) :
    ∀ acc : TM, (xs.foldl reloadOne acc).defaultHandle = acc.defaultHandle := by
  induction xs with
  | nil => intro acc; rfl
  | cons x xs ih =>
    intro acc
    rw [List.foldl_cons, ih, reloadOne_defaultHandle]

theorem reload_foldl_settingsFiles (xs : List Nat) :
    ∀ acc : TM, (xs.foldl reloadOne acc).settingsFiles = acc.settingsFiles := by
  induction xs with
  | nil => intro acc; rfl
  | cons x xs ih =>
    intro acc
    rw [List.foldl_cons, ih, reloadOne_settingsFiles]

theorem reload_foldl_effect (tids : List Nat) :
    ∀ (acc : TM) (tid : Nat), tid ∈ tids → (findTex acc tid).isSome = true →
      stateOf (tids.foldl reloadOne acc) tid = some .UNLOADED ∧
      handleOf (tids.foldl reloadOne acc) tid = some acc.defaultHandle ∧
      (findTex (tids.foldl reloadOne acc) tid).isSome = true ∧
      ((findTex (tids.foldl reloadOne acc) tid).map (·.selfSet) =
        (findTex acc tid).map (·.selfSet)) ∧
      ((findTex (tids.foldl reloadOne acc) tid).map (·.props) =
        (findTex acc tid).map (·.props)) := by
  induction tids with
  | nil => intro acc tid hmem; cases hmem
  | cons x xs ih =>
    intro acc tid hmem halive
    rw [List.foldl_cons]
    by_cases hmem' : tid ∈ xs
    · have halive' : (findTex (reloadOne acc x) tid).isSome = true := by
        rw [reloadOne_isSome]; exact halive
      obtain ⟨h1, h2, h3, h4, h5⟩ := ih (reloadOne acc x) tid hmem' halive'
      refine ⟨h1, ?_, h3, ?_, ?_⟩
      · rw [h2, reloadOne_defaultHandle]
      · rw [h4, reloadOne_map (·.selfSet) (fun t h => setHandle_selfSet t h) (fun t => rfl)]
      · rw [h5, reloadOne_map (·.props) (fun t h => setHandle_props t h) (fun t => rfl)]
    · have hx : tid = x := by
        cases hmem with
        | head => rfl
        | tail _ h => exact absurd h hmem'
      subst hx
      cases hf : findTex acc tid with
      | none => rw [hf] at halive; simp at halive
      | some t =>
        have hone : reloadOne acc tid = updateTex acc tid
            (fun u => setHandle { u with state := TexState.UNLOADED } acc.defaultHandle) := by
          unfold reloadOne
          rw [hf]
          rfl
        have hself : findTex (reloadOne acc tid) tid =
            some (setHandle { t with state := TexState.UNLOADED } acc.defaultHandle) := by
          rw [hone, findTex_updateTex_self acc tid
            (fun u => setHandle { u with state := TexState.UNLOADED } acc.defaultHandle)
            (fun u => by rw [setHandle_id]), hf]
          rfl
        have huntouched := reload_foldl_untouched xs (reloadOne acc tid) tid hmem'
        rw [huntouched, hself]
        refine ⟨?_, ?_, rfl, ?_, ?_⟩
        · unfold stateOf
          rw [huntouched, hself]
          simp
        · unfold handleOf
          rw [huntouched, hself]
          simp
        · simp
        · simp

/-- C6: `ReloadChangedFile(path)` removes any memoized settings-file
entry for `path`, and resets every live entry registered under `path` to
`UNLOADED` with the default placeholder handle, without destroying the
entry (its identity, self-reference and properties survive, so a later
`TryLoad` re-enters the pipeline from `UNLOADED`). -/
theorem onFileChanged_invalidates (tm : TM) (path : VfsPath) (tid : Nat)
    (hreg : tid ∈ hotloadLookup tm path)
    (halive : (findTex tm tid).isSome = true) :
    (∀ pr ∈ (reloadChangedFile tm path).settingsFiles, pr.1 ≠ path) ∧
    stateOf (reloadChangedFile tm path) tid = some .UNLOADED ∧
    handleOf (reloadChangedFile tm path) tid = some tm.defaultHandle ∧
    (findTex (reloadChangedFile tm path) tid).isSome = true ∧
    ((findTex (reloadChangedFile tm path) tid).map (·.selfSet) =
      (findTex tm tid).map (·.selfSet)) ∧
    ((findTex (reloadChangedFile tm path) tid).map (·.props) =
      (findTex tm tid).map (·.props)) := by
  cases hlook : lookupAssoc tm.hotload path with
  | none =>
    unfold hotloadLookup at hreg
    rw [hlook] at hreg
    cases hreg
  | some tids =>
    have hmem : tid ∈ tids := by
      unfold hotloadLookup at hreg
      rw [hlook] at hreg
      exact hreg
    have hred : reloadChangedFile tm path = tids.foldl reloadOne
        { tm with settingsFiles := tm.settingsFiles.filter (fun pr => pr.1 ≠ path) } := by
      simp only [reloadChangedFile, hlook]
    rw [hred]
    obtain ⟨h1, h2, h3, h4, h5⟩ := reload_foldl_effect tids
      { tm with settingsFiles := tm.settingsFiles.filter (fun pr => pr.1 ≠ path) }
      tid hmem halive
    refine ⟨?_, h1, h2, h3, h4, h5⟩
    intro pr hpr
    rw [reload_foldl_settingsFiles] at hpr
    simp only at hpr
    have := List.of_mem_filter hpr
    simpa using this

/-- C6 witness: notifying the source path of a `LOADED` entry resets it
to `UNLOADED` with the default placeholder handle. -/
theorem onFileChanged_invalidates_witness :
    stateOf (reloadChangedFile tmL pA.path) 0 = some .UNLOADED ∧
    handleOf (reloadChangedFile tmL pA.path) 0 = some 0 := by
  have h := onFileChanged_invalidates tmL pA.path 0 (by decide) (by decide)
  exact ⟨h.2.1, h.2.2.1⟩

/-- The successful-cache-load branch of `TryLoad` (shared reasoning):
from `UNLOADED`/`PREFETCH_NEEDS_LOADING` with a live self-reference,
a `TryLoadingCached` success yields `(true, entry set LOADED)`. -/
theorem tryLoad_load_branch (env : Env) (tm : TM) (tid : Nat) (t : CTexture)
    (hfind : findTex tm tid = some t) (hself : t.selfSet = true)
    (hstates : t.state = .UNLOADED ∨ t.state = .PREFETCH_NEEDS_LOADING)
    (hok : (tryLoadingCached env tm tid).1 = true) :
    tryLoad env tm tid = (true, updateTex (tryLoadingCached env tm tid).2 tid
      (fun u => { u with state := .LOADED })) := by
  have hne : t.state ≠ .PREFETCH_NEEDS_CONVERTING := by
    rcases hstates with h | h <;> rw [h] <;> simp
  have hcond : t.state = .UNLOADED ∨ t.state = .PREFETCH_NEEDS_LOADING ∨
      t.state = .PREFETCH_NEEDS_CONVERTING := by tauto
  rcases htlc : tryLoadingCached env tm tid with ⟨ok, tm2⟩
  rw [htlc] at hok
  simp only at hok
  subst hok
  have hsome2 : (findTex tm2 tid).isSome = true := by
    have := tryLoadingCached_isSome env tm tid tid
    rw [htlc, hfind] at this
    exact this
  simp only [tryLoad, hfind, if_pos hcond, hself, if_true, if_pos hne, htlc]
  rw [stateOf_updateTex_setState _ _ _ hsome2]
  simp

/-- C7: loading failures are absorbed locally — a missing source (with
unusable archive) makes `TryLoadingCached` substitute the error
placeholder and report success without touching the converter; a failed
resource load or upload of an existing file also ends in the error
placeholder; in each case `TryLoad` returns `true` with the entry
`LOADED` and carrying the error placeholder handle. -/
theorem failure_absorbed (env : Env) (tm : TM) (tid : Nat) (t : CTexture)
    (hfind : findTex tm tid = some t) (hself : t.selfSet = true)
    (hstate : t.state = .UNLOADED) :
    (canUseArchiveCache env t.props.path (archiveCachePathOf t.props.path) = false →
      env.fileInfo t.props.path = none →
      tryLoadingCached env tm tid =
        (true, updateTex tm tid (fun u => setHandle u tm.errorHandle)) ∧
      ((tryLoadingCached env tm tid).2).converter = tm.converter ∧
      (tryLoad env tm tid).1 = true ∧
      stateOf (tryLoad env tm tid).2 tid = some .LOADED ∧
      handleOf (tryLoad env tm tid).2 tid = some tm.errorHandle) ∧
    (env.disableGL = false →
      canUseArchiveCache env t.props.path (archiveCachePathOf t.props.path) = true →
      env.glLoad (archiveCachePathOf t.props.path) = none →
      (tryLoad env tm tid).1 = true ∧
      stateOf (tryLoad env tm tid).2 tid = some .LOADED ∧
      handleOf (tryLoad env tm tid).2 tid = some tm.errorHandle) ∧
    (∀ h, env.disableGL = false →
      canUseArchiveCache env t.props.path (archiveCachePathOf t.props.path) = true →
      env.glLoad (archiveCachePathOf t.props.path) = some h →
      env.glUpload h = false →
      (tryLoad env tm tid).1 = true ∧
      stateOf (tryLoad env tm tid).2 tid = some .LOADED ∧
      handleOf (tryLoad env tm tid).2 tid = some tm.errorHandle) := by
  have hsome : (findTex tm tid).isSome = true := by rw [hfind]; rfl
  have hsometlc : (findTex (tryLoadingCached env tm tid).2 tid).isSome = true := by
    rw [tryLoadingCached_isSome]; exact hsome
  have habsorb : (tryLoadingCached env tm tid).1 = true →
      handleOf (tryLoadingCached env tm tid).2 tid = some tm.errorHandle →
      (tryLoad env tm tid).1 = true ∧
      stateOf (tryLoad env tm tid).2 tid = some .LOADED ∧
      handleOf (tryLoad env tm tid).2 tid = some tm.errorHandle := by
    intro hok hhandle
    have hTL := tryLoad_load_branch env tm tid t hfind hself (Or.inl hstate) hok
    rw [hTL]
    refine ⟨rfl, ?_, ?_⟩
    · exact stateOf_updateTex_setState _ _ _ hsometlc
    · rw [handleOf_updateTex_setState]
      exact hhandle
  refine ⟨?_, ?_, ?_⟩
  · intro hcan hsrc
    have htlc := tryLoadingCached_missing_source env tm tid t hfind hcan hsrc
    have hok : (tryLoadingCached env tm tid).1 = true := by rw [htlc]
    have hhandle : handleOf (tryLoadingCached env tm tid).2 tid = some tm.errorHandle := by
      rw [htlc]
      exact handleOf_updateTex_setHandle tm tid tm.errorHandle hsome
    refine ⟨htlc, ?_, habsorb hok hhandle⟩
    rw [htlc]
    rfl
  · intro hgl hcan hload
    have htlc := tryLoadingCached_archive env tm tid t hfind hcan
    have hok : (tryLoadingCached env tm tid).1 = true := by rw [htlc]
    have hhandle : handleOf (tryLoadingCached env tm tid).2 tid = some tm.errorHandle := by
      rw [htlc]
      exact loadTexture_handle_loadfail env tm tid _ t hfind hgl hload
    exact habsorb hok hhandle
  · intro h hgl hcan hload hup
    have htlc := tryLoadingCached_archive env tm tid t hfind hcan
    have hok : (tryLoadingCached env tm tid).1 = true := by rw [htlc]
    have hhandle : handleOf (tryLoadingCached env tm tid).2 tid = some tm.errorHandle := by
      rw [htlc]
      exact loadTexture_handle_uploadfail env tm tid _ t h hfind hgl hload hup
    exact habsorb hok hhandle

/-- C7 witness: with a missing source file and unusable archive cache,
`TryLoad` reports success, the entry is `LOADED`, and its handle is the
error placeholder. -/
theorem failure_absorbed_witness :
    (tryLoad envC3 tmU 0).1 = true ∧
    stateOf (tryLoad envC3 tmU 0).2 0 = some .LOADED ∧
    handleOf (tryLoad envC3 tmU 0).2 0 = some 1 := by
  have h := (failure_absorbed envC3 tmU 0 texU0 (by decide) rfl rfl).1
    (by decide) rfl
  exact ⟨h.2.2.1, h.2.2.2.1, h.2.2.2.2⟩

/-! ### Loose-cache path lemmas -/

/-- The sixteen lower-case hexadecimal characters. -/
def hexChars : List Char := ("0123456789abcdef").data

theorem hexDigit_mem : ∀ n, n < 16 → hexDigit n ∈ hexChars := by decide

theorem hexDigit_div_mem (b : Nat) (hb : b < 256) :
    hexDigit (b / 16) ∈ hexChars :=
  hexDigit_mem _ (by omega)

theorem hexDigit_mod_mem (b : Nat) : hexDigit (b % 16) ∈ hexChars :=
  hexDigit_mem _ (Nat.mod_lt _ (by norm_num))

theorem digestPrefixStr_data (d : Fin 16 → Fin 256) :
    (digestPrefixStr d).data =
      [hexDigit ((d 0).val / 16), hexDigit ((d 0).val % 16),
       hexDigit ((d 1).val / 16), hexDigit ((d 1).val % 16),
       hexDigit ((d 2).val / 16), hexDigit ((d 2).val % 16),
       hexDigit ((d 3).val / 16), hexDigit ((d 3).val % 16),
       hexDigit ((d 4).val / 16), hexDigit ((d 4).val % 16),
       hexDigit ((d 5).val / 16), hexDigit ((d 5).val % 16),
       hexDigit ((d 6).val / 16), hexDigit ((d 6).val % 16),
       hexDigit ((d 7).val / 16), hexDigit ((d 7).val % 16)] := rfl

theorem digestPrefixStr_length (d : Fin 16 → Fin 256) :
    (digestPrefixStr d).length = 16 := rfl

theorem digestPrefixStr_hex (d : Fin 16 → Fin 256) :
    ∀ c ∈ (digestPrefixStr d).data, c ∈ hexChars := by
  intro c hc
  rw [digestPrefixStr_data] at hc
  simp only [List.mem_cons, List.not_mem_nil, or_false] at hc
  rcases hc with rfl | rfl | rfl | rfl | rfl | rfl | rfl | rfl | rfl | rfl |
    rfl | rfl | rfl | rfl | rfl | rfl <;>
    first
      | exact hexDigit_div_mem _ (Fin.isLt _)
      | exact hexDigit_mod_mem _

theorem looseCachePathFn_fst (env : Env) (tm : TM) (t : CTexture)
    (fi : FileInfo) (hfi : env.fileInfo t.props.path = some fi) :
    (looseCachePathFn env tm t).1 =
      ["cache"] ++ t.props.path.dropLast ++
        [leafName t.props.path ++ "." ++ digestPrefixStr (env.md5
          (looseCacheHashInput (fi.mtime % 2 ^ 64 - fi.mtime % 2 ^ 64 % 2)
            (fi.size % 2 ^ 64) 0 (getConverterSettings env tm t).1)) ++ ".dds"] := by
  rcases hGCS : getConverterSettings env tm t with ⟨settings, tm1⟩
  simp only [looseCachePathFn, hfi, hGCS]

/-- C8: the loose-cache path is
`cache/<sourceDir>/<sourceName>.<digestPrefix>.dds` with a
16-hex-character digest prefix, and it is a function only of the digest
oracle, the source path, the source size, the mtime with its lowest bit
masked off, the fixed version constant, and the resolved settings — so
two mtimes differing only in the lowest bit give the same path. -/
theorem looseCachePath_spec (env : Env) (tm : TM) (t : CTexture)
    (fi : FileInfo) (hfi : env.fileInfo t.props.path = some fi) :
    (∃ dp : String, (looseCachePathFn env tm t).1 =
        ["cache"] ++ t.props.path.dropLast ++
          [leafName t.props.path ++ "." ++ dp ++ ".dds"] ∧
      dp.length = 16 ∧ ∀ c ∈ dp.data, c ∈ hexChars) ∧
    (∀ env₂ tm₂ t₂ fi₂, env₂.md5 = env.md5 → t₂.props.path = t.props.path →
      env₂.fileInfo t₂.props.path = some fi₂ →
      fi₂.size % 2 ^ 64 = fi.size % 2 ^ 64 →
      fi₂.mtime / 2 = fi.mtime / 2 →
      (getConverterSettings env₂ tm₂ t₂).1 = (getConverterSettings env tm t).1 →
      (looseCachePathFn env₂ tm₂ t₂).1 = (looseCachePathFn env tm t).1) := by
  constructor
  · exact ⟨_, looseCachePathFn_fst env tm t fi hfi,
      digestPrefixStr_length _, digestPrefixStr_hex _⟩
  · intro env₂ tm₂ t₂ fi₂ hmd5 hpath hfi₂ hsize hmask hsettings
    rw [looseCachePathFn_fst env₂ tm₂ t₂ fi₂ hfi₂,
      looseCachePathFn_fst env tm t fi hfi, hmd5, hpath, hsettings, hsize]
    have hm : fi₂.mtime % 2 ^ 64 - fi₂.mtime % 2 ^ 64 % 2 =
        fi.mtime % 2 ^ 64 - fi.mtime % 2 ^ 64 % 2 := by
      have h2 := hmask
      norm_num
      omega
    rw [hm]

/-- VFS for the C8 witness: source mtime 100. -/
def envC8a : Env :=
  { envC3 with fileInfo := fun p => if p = pA.path then some ⟨10, 100⟩ else none }

/-- VFS identical to `envC8a` except the source mtime's lowest bit. -/
def envC8b : Env :=
  { envC3 with fileInfo := fun p => if p = pA.path then some ⟨10, 101⟩ else none }

/-- C8 witness: the derived path has the documented shape with a 16-hex
digest prefix, and flipping the mtime's lowest bit leaves it unchanged. -/
theorem looseCachePath_spec_witness :
    (∃ dp : String, (looseCachePathFn envC8a tmU texU0).1 =
        ["cache"] ++ texU0.props.path.dropLast ++
          [leafName texU0.props.path ++ "." ++ dp ++ ".dds"] ∧
      dp.length = 16 ∧ ∀ c ∈ dp.data, c ∈ hexChars) ∧
    (looseCachePathFn envC8b tmU texU0).1 = (looseCachePathFn envC8a tmU texU0).1 := by
  have h := looseCachePath_spec envC8a tmU texU0 ⟨10, 100⟩ (by decide)
  exact ⟨h.1, h.2 envC8b tmU texU0 ⟨10, 101⟩ rfl rfl (by decide) (by decide)
    (by decide) (by decide)⟩

theorem findFirstInState_some {tm : TM} {s : TexState} {tid : Nat}
    (h : findFirstInState tm s = some tid) :
    tid ∈ tm.cache ∧ ∃ t, findTex tm tid = some t ∧ t.state = s := by
  have hmem := List.mem_of_find?_eq_some h
  have hpred := List.find?_some h
  refine ⟨hmem, ?_⟩
  cases hf : findTex tm tid with
  | none => rw [hf] at hpred; simp at hpred
  | some t =>
    rw [hf] at hpred
    simp only [decide_eq_true_eq] at hpred
    exact ⟨t, rfl, hpred⟩

theorem convertTexture_texs (env : Env) (tm : TM) (tid : Nat) :
    (convertTexture env tm tid).texs = tm.texs := by
  cases hf : findTex tm tid with
  | none => simp only [convertTexture, hf]
  | some t =>
    obtain ⟨hl, sf, j, heq, _⟩ := convertTexture_found env tm tid t hf
    rw [heq]

theorem stateOf_eq_of_texs (tm tm' : TM) (h : tm'.texs = tm.texs) (tid : Nat) :
    stateOf tm' tid = stateOf tm tid := by
  unfold stateOf findTex
  rw [h]

/-- C2: the `MakeProgress` scheduling policy — a polled completion is
applied first and ends the call; while a conversion job is in flight no
new job is submitted and no entry newly enters a converting state, but a
prefetch cache-load still proceeds; when idle, a `HIGH_NEEDS_CONVERTING`
entry is submitted before any `PREFETCH_NEEDS_CONVERTING` entry, which
is submitted only when nothing else was done; each call performs exactly
the first applicable step; and the number of in-flight conversion jobs
never exceeds one. -/
theorem makeProgress_policy (env : Env) (tm : TM) :
    (∀ tm1, pollStep env tm = some tm1 → makeProgress env tm = (true, tm1)) ∧
    (tm.converter.results = [] → tm.converter.jobs ≠ [] →
      (makeProgress env tm).2.converter.jobs = tm.converter.jobs ∧
      (∀ tid s, (s = TexState.HIGH_IS_CONVERTING ∨ s = TexState.PREFETCH_IS_CONVERTING) →
        stateOf tm tid ≠ some s → stateOf (makeProgress env tm).2 tid ≠ some s)) ∧
    (tm.converter.results = [] → tm.converter.jobs = [] →
      ∀ tid, findFirstInState tm .HIGH_NEEDS_CONVERTING = some tid →
        makeProgress env tm = (true, convertTexture env
          (updateTex tm tid (fun t => { t with state := .HIGH_IS_CONVERTING })) tid) ∧
        ∃ j, (makeProgress env tm).2.converter.jobs = tm.converter.jobs ++ [j] ∧
          j.tid = tid ∧
          stateOf (makeProgress env tm).2 tid = some .HIGH_IS_CONVERTING) ∧
    ((tm.converter.jobs ≠ [] ∨ findFirstInState tm .HIGH_NEEDS_CONVERTING = none) →
      tm.converter.results = [] →
      ∀ tid, findFirstInState tm .PREFETCH_NEEDS_LOADING = some tid →
        ∃ tm1, prefetchLoadStep env tm = some tm1 ∧
          makeProgress env tm = (true, tm1)) ∧
    (tm.converter.results = [] → tm.converter.jobs = [] →
      findFirstInState tm .HIGH_NEEDS_CONVERTING = none →
      findFirstInState tm .PREFETCH_NEEDS_LOADING = none →
      ∀ tid, findFirstInState tm .PREFETCH_NEEDS_CONVERTING = some tid →
        makeProgress env tm = (true, convertTexture env
          (updateTex tm tid (fun t => { t with state := .PREFETCH_IS_CONVERTING })) tid)) ∧
    (tm.converter.jobs.length + tm.converter.results.length ≤ 1 →
      (makeProgress env tm).2.converter.jobs.length +
        (makeProgress env tm).2.converter.results.length ≤ 1) := by
  refine ⟨?_, ?_, ?_, ?_, ?_, ?_⟩
  · intro tm1 h
    exact makeProgress_of_poll env tm tm1 h
  · intro hres hjobs
    have hmb := makeProgress_busy env tm hres hjobs
    cases hp : prefetchLoadStep env tm with
    | none =>
      rw [hmb, hp]
      exact ⟨rfl, fun tid s hs hpre => hpre⟩
    | some tm1 =>
      rw [hmb, hp]
      refine ⟨?_, ?_⟩
      · rw [prefetchLoadStep_converter env tm tm1 hp]
      · intro tid s hs hpre
        exact prefetchLoadStep_no_new_converting env tm tm1 hp tid s hs hpre
  · intro hres hjobs tid hhigh
    have hmp := makeProgress_idle_high env tm tid hres hjobs hhigh
    obtain ⟨hcache, t, hft, hst⟩ := findFirstInState_some hhigh
    have hftX : findTex (updateTex tm tid
        (fun u => { u with state := TexState.HIGH_IS_CONVERTING })) tid =
        some { t with state := TexState.HIGH_IS_CONVERTING } := by
      rw [findTex_updateTex_self tm tid
        (fun u => { u with state := TexState.HIGH_IS_CONVERTING }) (fun u => rfl), hft]
      rfl
    obtain ⟨hl, sf, j, heqc, hjtid⟩ := convertTexture_found env
      (updateTex tm tid (fun u => { u with state := TexState.HIGH_IS_CONVERTING }))
      tid _ hftX
    refine ⟨hmp, j, ?_, hjtid, ?_⟩
    · rw [hmp]
      simp only
      rw [heqc]
      rfl
    · rw [hmp]
      simp only
      rw [stateOf_eq_of_texs _ _ (convertTexture_texs env _ tid) tid]
      unfold stateOf
      rw [hftX]
      rfl
  · intro hbar hres tid hpfl
    have hsome := prefetchLoadStep_eq env tm tid hpfl
    refine ⟨_, hsome, ?_⟩
    rcases hbar with hjobs | hhigh
    · rw [makeProgress_busy env tm hres hjobs, hsome]
    · by_cases hjobs : tm.converter.jobs = []
      · rw [makeProgress_idle_noHigh_pfl env tm tid hres hjobs hhigh hpfl]
      · rw [makeProgress_busy env tm hres hjobs, hsome]
  · intro hres hjobs hhigh hpfl tid hpfc
    exact makeProgress_idle_pfc env tm tid hres hjobs hhigh hpfl hpfc
  · intro hbound
    cases hres : tm.converter.results with
    | cons r rest =>
      obtain ⟨tid, dest, ok⟩ := r
      have hpoll := pollStep_eq env tm tid dest ok rest hres
      have hmp := makeProgress_of_poll env tm _ hpoll
      have hconv : (makeProgress env tm).2.converter =
          ⟨tm.converter.jobs, rest⟩ := by
        rw [hmp]
        simp only [updateTex_converter]
        cases ok
        · simp only [Bool.false_eq_true, if_false, updateTex_converter]
        · simp only [if_true]
          obtain ⟨texs', hshape⟩ := loadTexture_shape env
            { tm with converter := { tm.converter with results := rest } } tid dest
          rw [hshape]
      rw [hconv]
      rw [hres] at hbound
      simp only [List.length_cons] at hbound
      simp only
      omega
    | nil =>
      by_cases hjobs : tm.converter.jobs = []
      · cases hhigh : findFirstInState tm .HIGH_NEEDS_CONVERTING with
        | some tid =>
          rw [makeProgress_idle_high env tm tid hres hjobs hhigh]
          obtain ⟨hcache, t, hft, hst⟩ := findFirstInState_some hhigh
          have hftX : findTex (updateTex tm tid
              (fun u => { u with state := TexState.HIGH_IS_CONVERTING })) tid =
              some { t with state := TexState.HIGH_IS_CONVERTING } := by
            rw [findTex_updateTex_self tm tid
              (fun u => { u with state := TexState.HIGH_IS_CONVERTING }) (fun u => rfl), hft]
            rfl
          obtain ⟨hl, sf, j, heqc, hjtid⟩ := convertTexture_found env
            (updateTex tm tid (fun u => { u with state := TexState.HIGH_IS_CONVERTING }))
            tid _ hftX
          simp only
          rw [heqc]
          simp [hjobs, hres]
        | none =>
          cases hpfl : findFirstInState tm .PREFETCH_NEEDS_LOADING with
          | some tid =>
            rw [makeProgress_idle_noHigh_pfl env tm tid hres hjobs hhigh hpfl]
            simp only [updateTex_converter, tryLoadingCached_converter]
            rw [hjobs, hres]
            simp
          | none =>
            cases hpfc : findFirstInState tm .PREFETCH_NEEDS_CONVERTING with
            | some tid =>
              rw [makeProgress_idle_pfc env tm tid hres hjobs hhigh hpfl hpfc]
              obtain ⟨hcache, t, hft, hst⟩ := findFirstInState_some hpfc
              have hftX : findTex (updateTex tm tid
                  (fun u => { u with state := TexState.PREFETCH_IS_CONVERTING })) tid =
                  some { t with state := TexState.PREFETCH_IS_CONVERTING } := by
                rw [findTex_updateTex_self tm tid
                  (fun u => { u with state := TexState.PREFETCH_IS_CONVERTING })
                  (fun u => rfl), hft]
                rfl
              obtain ⟨hl, sf, j, heqc, hjtid⟩ := convertTexture_found env
                (updateTex tm tid
                  (fun u => { u with state := TexState.PREFETCH_IS_CONVERTING }))
                tid _ hftX
              simp only
              rw [heqc]
              simp [hjobs, hres]
            | none =>
              have hnone : makeProgress env tm = (false, tm) := by
                have hbusy : tm.converter.isBusy = false := by
                  simp [ConvState.isBusy, hres, hjobs]
                have hsub : submitHighStep env tm = none := by
                  simp [submitHighStep, hhigh]
                have hpfln : prefetchLoadStep env tm = none := by
                  simp [prefetchLoadStep, hpfl]
                have hsubp : submitPrefetchStep env tm = none := by
                  simp [submitPrefetchStep, hpfc]
                simp only [makeProgress, pollStep_none env tm hres, hbusy,
                  Bool.false_eq_true, if_false, hsub, hpfln, hsubp]
              rw [hnone]
              exact hbound
      · rw [makeProgress_busy env tm hres hjobs]
        cases hp : prefetchLoadStep env tm with
        | none =>
          simp only
          exact hbound
        | some tm1 =>
          simp only
          rw [prefetchLoadStep_converter env tm tm1 hp]
          exact hbound

/-- An entry awaiting high-priority conversion, in an idle manager. -/
def texH : CTexture := ⟨0, 0, 0, .HIGH_NEEDS_CONVERTING, pA, true⟩

/-- Manager fixture for the C2 witness. -/
def tmH : TM := ⟨[texH], 1, [0], [(pA.path, [0])], [], ⟨[], []⟩, 0, 1⟩

/-- C2 witness: on an idle manager, `MakeProgress` submits the
`HIGH_NEEDS_CONVERTING` entry and moves it to `HIGH_IS_CONVERTING`. -/
theorem makeProgress_policy_witness :
    makeProgress envC3 tmH = (true, convertTexture envC3
      (updateTex tmH 0 (fun t => { t with state := .HIGH_IS_CONVERTING })) 0) ∧
    stateOf (makeProgress envC3 tmH).2 0 = some .HIGH_IS_CONVERTING := by
  have h := (makeProgress_policy envC3 tmH).2.2.1 rfl rfl 0 (by decide)
  obtain ⟨j, h1, h2, h3⟩ := h.2
  exact ⟨h.1, h3⟩

end TexMgr
